import Mathlib

/-!
Verification of the Chimera Gear simulation core (genome-driven breeding and
tick-based battle engine). The TypeScript sources are embedded shallowly:

* JS numbers are modeled as real numbers (`ℝ`); `Math.round` is Mathlib's
  `round` (round half up, which agrees with JS on the non-negative values
  produced here); `Math.pow` with a fractional exponent is `Real.rpow`.
* A genome is a `List ℝ`; `genome[i]` is `List.getD i 0` (every embedded call
  site accesses in range, so the default is never read on valid data).
* Every call of the global RNG (`Math.random()`) is one value drawn from an
  explicit stream of draws (`Rng`), threaded through each operation in the
  exact order the source consumes them.  "For all outcomes of the random
  draws" is quantification over all streams whose values lie in [0,1).
* Thrown exceptions are `Except.error`; the JS sentinels `Infinity` (kill
  time with no win) and `NaN` (0/0 in the zero-battle simulation) are the
  `none` of an `Option ℝ`, each noted where it is used.
-/

noncomputable section

/-- A stream of uniform draws with a cursor: one `Math.random()` call reads
`vals idx` and advances the cursor. -/
structure Rng where
  vals : ℕ → ℝ
  idx : ℕ

/-- One draw: the value at the cursor, and the advanced stream. -/
def Rng.next (r : Rng) : ℝ × Rng := (r.vals r.idx, ⟨r.vals, r.idx + 1⟩)

/-- Advance the cursor by `k` draws (used to state how many draws an
operation consumed). -/
def Rng.advance (r : Rng) (k : ℕ) : Rng := ⟨r.vals, r.idx + k⟩

/-- Every value of the stream is a possible `Math.random()` result. -/
def Rng.Valid (r : Rng) : Prop := ∀ n, 0 ≤ r.vals n ∧ r.vals n < 1

/-- JS `Math.round` (round half toward positive infinity), as a real. -/
def jsRound (x : ℝ) : ℝ := ((round x : ℤ) : ℝ)

/-- A genome: the source keeps exactly 10 gene values in [0,1]. -/
abbrev Genome := List ℝ

/-- The genome contract assumed throughout the source: exactly 10 genes,
each in [0,1]. -/
def ValidGenome (g : Genome) : Prop :=
  g.length = 10 ∧ ∀ x ∈ g, 0 ≤ x ∧ x ≤ 1

-- ========================================================================
-- mathUtils.ts
-- ========================================================================

/-- mathUtils.clampGene: clamp a gene value to [0, 1]. -/
def clampGene (value : ℝ) : ℝ := max 0 (min 1 value)

/-- mathUtils.applySoftCap: if the total gene sum exceeds `cap`, compress the
excess by `compressionRate` (default 10%); returns a new genome array. -/
def applySoftCap (genome : Genome) (cap : ℝ := 7.0) (compressionRate : ℝ := 0.1) :
    Genome :=
  let totalSum := genome.sum
  if totalSum ≤ cap then genome
  else
    let excess := totalSum - cap
    let scale := 1 - (excess / totalSum) * compressionRate
    genome.map (fun g => clampGene (g * scale))

/-- mathUtils.RANK_COST_MAP. -/
def RANK_COST_MAP : List (String × ℝ) :=
  [("D", 1), ("C", 1), ("B", 1.5), ("A", 2), ("S", 3), ("SS", 5)]

/-- The result record of calculateBreedingCost. -/
structure BreedingCost where
  breedCost : ℝ
  totalCost : ℝ

/-- mathUtils.calculateBreedingCost:
round(baseCost × generation^2.5 × rankMultiplier) + lockedGenes × lockCostPerGene.
An unknown rank string falls back to multiplier 1 (the source's `?? 1`). -/
def calculateBreedingCost (generation : ℝ) (bestRank : String) (lockedGeneCount : ℕ)
    (baseCost : ℝ := 25) (lockCostPerGene : ℝ := 10) : BreedingCost :=
  let genCost := generation ^ (2.5 : ℝ)
  let rankMult := ((RANK_COST_MAP.lookup bestRank).getD 1)
  let breedCost := jsRound (baseCost * genCost * rankMult)
  { breedCost := breedCost
    totalCost := breedCost + lockedGeneCount * lockCostPerGene }

/-- mathUtils.requiredMastery: 15 + generation * 5. -/
def requiredMastery (generation : ℝ) : ℝ := 15 + generation * 5

/-- mathUtils.diminishingReturns: baseValue / (1 + ln(max 1 gen) * 0.25). -/
def diminishingReturns (baseValue : ℝ) (generation : ℝ) : ℝ :=
  let decay := 1 + Real.log (max 1 generation) * 0.25
  baseValue / decay

/-- mathUtils.masterySynchroBoost: 1 + min(mastery, 100)/1000. -/
def masterySynchroBoost (mastery : ℝ) : ℝ := 1 + min mastery 100 / 1000

/-- mathUtils.masteryCritBonus: floor(min(mastery, 100)/10) * 0.01. -/
def masteryCritBonus (mastery : ℝ) : ℝ := ((⌊min mastery 100 / 10⌋ : ℤ) : ℝ) * 0.01

/-- mathUtils.isMasteryMax. -/
def isMasteryMax (mastery : ℝ) : Prop := mastery ≥ 100

/-- The per-gene generator of createStageGenome: one draw per gene,
`max(0.01, min(0.99, random()*range + floorBase))`. -/
def stageGenomeGenes (range floorBase : ℝ) : ℕ → Rng → Genome × Rng
  | 0, rng => ([], rng)
  | n + 1, rng =>
    let r := rng.next
    let raw := r.1 * range + floorBase
    let rest := stageGenomeGenes range floorBase n r.2
    (max 0.01 (min 0.99 raw) :: rest.1, rest.2)

/-- mathUtils.createStageGenome: genome quality scaled logarithmically with
the stage. -/
def createStageGenome (stage : ℝ) (geneCount : ℕ := 10) (rng : Rng) : Genome × Rng :=
  let progress := Real.log (1 + stage) / Real.log (1 + 100)
  let range := min (0.25 + progress * 0.65) 0.90
  let floorBase := min (progress * 0.45) 0.45
  stageGenomeGenes range floorBase geneCount rng

-- ========================================================================
-- TraitSystem.ts: calcStackedEffect (the stacking formula under test)
-- ========================================================================

/-- TraitSystem.calcStackedEffect: diminishing-returns stacking,
1 - (1 - |individualEffect|)^count, and 0 for a non-positive count. -/
def calcStackedEffect (individualEffect : ℝ) (stackCount : ℕ) : ℝ :=
  if stackCount = 0 then 0
  else 1 - (1 - |individualEffect|) ^ stackCount

-- ========================================================================
-- ItemDecoder.ts: genome → combat stats
-- ========================================================================

/-- The three elements. -/
inductive ElementType
  | Fire
  | Ice
  | Lightning
deriving DecidableEq, Repr

/-- The four special abilities ('none' is the source's string value). -/
inductive SpecialAbility
  | none
  | homing
  | piercing
  | chain_explosion
deriving DecidableEq, Repr

/-- The three battle actions. -/
inductive ActionType
  | attack
  | skill
  | defend
deriving DecidableEq, Repr

/-- ItemDecoder's derived combat statistics. -/
structure CombatStats where
  attack : ℝ
  attackSpeed : ℝ
  element : ElementType
  special : SpecialAbility
  maxHp : ℝ
  defense : ℝ
  aggressionWeight : ℝ
  defenseWeight : ℝ
  tacticalWeight : ℝ
  fireResist : ℝ
  iceResist : ℝ
  lightningResist : ℝ

/-- ItemDecoder.decode: pure map from a genome (plus a stage base) to combat
stats, with the element-specific final bonuses. -/
def decode (genome : Genome) (stageBase : ℝ := 100) : CombatStats :=
  let attack := genome.getD 0 0 ^ (1.4 : ℝ) * stageBase
  let attackSpeed := 0.3 + (1.0 - genome.getD 1 0) * 1.2
  let element : ElementType :=
    if genome.getD 2 0 < 0.33 then .Fire
    else if genome.getD 2 0 < 0.66 then .Ice
    else .Lightning
  let special : SpecialAbility :=
    if genome.getD 3 0 ≥ 0.9 then .chain_explosion
    else if genome.getD 3 0 ≥ 0.75 then .homing
    else if genome.getD 3 0 ≥ 0.6 then .piercing
    else .none
  let maxHp := 50 + genome.getD 4 0 * 350
  let rawAggr := genome.getD 5 0
  let rawDef := genome.getD 6 0
  let rawTact := genome.getD 7 0
  let total := rawAggr + rawDef + rawTact + 0.01
  let aggressionWeight := rawAggr / total
  let defenseWeight := rawDef / total
  let tacticalWeight := rawTact / total
  let fireResist := genome.getD 8 0
  let iceResist := genome.getD 9 0
  let lightningResist := max 0 (1.0 - (fireResist + iceResist) * 0.6)
  let defense := ((fireResist + iceResist + lightningResist) / 3) * 15
  let finalAttack := if element = .Fire then attack * 1.20 else attack
  let finalMaxHp := if element = .Ice then maxHp * 1.20 else maxHp
  let finalDefense := if element = .Ice then defense * 1.20 else defense
  let finalAttackSpeed := if element = .Lightning then attackSpeed * 0.80 else attackSpeed
  { attack := finalAttack
    attackSpeed := finalAttackSpeed
    element := element
    special := special
    maxHp := finalMaxHp
    defense := finalDefense
    aggressionWeight := aggressionWeight
    defenseWeight := defenseWeight
    tacticalWeight := tacticalWeight
    fireResist := fireResist
    iceResist := iceResist
    lightningResist := lightningResist }

-- ========================================================================
-- TraitSystem.ts
-- ========================================================================

/-- Trait rarity ranks. -/
inductive TraitRank
  | Common
  | Rare
  | Epic
  | Legendary
deriving DecidableEq, Repr

/-- The five trait categories. -/
inductive TraitCategory
  | element_linked
  | stat_skewed
  | mutation
  | pure_positive
  | genetic_disease
deriving DecidableEq, BEq, Repr

/-- A static trait definition.  The percentage stat modifiers are kept as
key/value lists in the insertion order of the source's object literals
(display-only fields icon/desc are omitted).  An absent optional numeric
field and the source's `undefined` are both `none`. -/
structure TraitDefinition where
  id : String
  name : String
  rank : TraitRank
  category : TraitCategory
  capacity : ℝ
  bonuses : List (String × ℝ)
  penalties : List (String × ℝ)
  element : Option ElementType := Option.none
  berserkThreshold : Option ℝ := Option.none
  mutationChance : Option ℝ := Option.none

/-- An acquired trait instance on an item. -/
inductive TraitSource
  | inherited
  | mutation
  | crystal_extract
deriving DecidableEq, Repr

/-- A trait instance: definition reference, acquisition rank and origin. -/
structure TraitInstance where
  defId : String
  rank : TraitRank
  source : TraitSource
deriving DecidableEq, Repr

/-- TRAIT_CONFIG.maxSlots. -/
def maxSlots : ℕ := 5

/-- TRAIT_CONFIG.capacityLimit. -/
def capacityLimit : ℝ := 12

/-- TRAIT_CONFIG.rankCapacity. -/
def rankCapacity : TraitRank → ℝ
  | .Common => 1
  | .Rare => 2
  | .Epic => 3
  | .Legendary => 4

/-- TRAIT_CONFIG.purePositiveMutationChance. -/
def purePositiveMutationChance : ℝ := 0.12

/-- TRAIT_CONFIG.diseaseBaseChance. -/
def diseaseBaseChance : ℝ := 0.40

/-- TRAIT_LIBRARY: the static trait definitions, in source order. -/
def TRAIT_LIBRARY : List TraitDefinition :=
  [ { id := "ELT_001", name := "灼熱核", rank := .Rare, category := .element_linked,
      capacity := 2, bonuses := [("attack", 0.40)], penalties := [("maxHp", -0.20)],
      element := some .Fire }
  , { id := "ELT_002", name := "永久凍土", rank := .Rare, category := .element_linked,
      capacity := 2, bonuses := [("defense", 0.50)], penalties := [("attackSpeed", -0.30)],
      element := some .Ice }
  , { id := "ELT_003", name := "過電流", rank := .Rare, category := .element_linked,
      capacity := 2, bonuses := [("attackSpeed", 0.60)], penalties := [("attack", -0.25)],
      element := some .Lightning }
  , { id := "ELT_004", name := "業火の鎧", rank := .Epic, category := .element_linked,
      capacity := 3, bonuses := [("fireResist", 0.60)], penalties := [("iceResist", -0.40)],
      element := some .Fire }
  , { id := "SST_001", name := "ガラスの大砲", rank := .Epic, category := .stat_skewed,
      capacity := 3, bonuses := [("attack", 0.80)],
      penalties := [("maxHp", -0.40), ("defense", -0.30)] }
  , { id := "SST_002", name := "鉄壁の亀", rank := .Epic, category := .stat_skewed,
      capacity := 3, bonuses := [("defense", 1.00), ("maxHp", 0.25)],
      penalties := [("attackSpeed", -0.50), ("attack", -0.20)] }
  , { id := "SST_003", name := "吸血鬼", rank := .Rare, category := .stat_skewed,
      capacity := 2, bonuses := [("lifesteal", 0.20)], penalties := [("maxHp", -0.30)] }
  , { id := "SST_004", name := "捨て身", rank := .Rare, category := .stat_skewed,
      capacity := 2, bonuses := [("attack", 0.60), ("critRate", 0.15)],
      penalties := [("defense", -0.50)] }
  , { id := "MUT_001", name := "不安定な核", rank := .Rare, category := .mutation,
      capacity := 2, bonuses := [("attack", 0.35)], penalties := [],
      mutationChance := some 0.05 }
  , { id := "MUT_002", name := "狂戦士化", rank := .Epic, category := .mutation,
      capacity := 3, bonuses := [("attack", 1.00)], penalties := [("defense", -1.00)],
      berserkThreshold := some 0.50 }
  , { id := "MUT_003", name := "適者生存", rank := .Legendary, category := .mutation,
      capacity := 4, bonuses := [],
      penalties := [("attack", -0.15), ("defense", -0.15), ("maxHp", -0.15)] }
  , { id := "MUT_004", name := "呪詛の刃", rank := .Rare, category := .mutation,
      capacity := 2, bonuses := [("dotOnHit", 0.02)], penalties := [("hpDecayPerSec", 0.01)] }
  , { id := "PP_001", name := "黄金の回路", rank := .Rare, category := .pure_positive,
      capacity := 2, bonuses := [("attack", 0.05), ("defense", 0.05), ("maxHp", 0.05)],
      penalties := [] }
  , { id := "PP_002", name := "精密神経", rank := .Common, category := .pure_positive,
      capacity := 1, bonuses := [("attackSpeed", 0.08)], penalties := [] }
  , { id := "PP_003", name := "強靭な皮膚", rank := .Common, category := .pure_positive,
      capacity := 1, bonuses := [("defense", 0.08)], penalties := [] }
  , { id := "PP_004", name := "覇気", rank := .Legendary, category := .pure_positive,
      capacity := 4,
      bonuses := [("attack", 0.10), ("defense", 0.10), ("maxHp", 0.10), ("attackSpeed", 0.10)],
      penalties := [] }
  , { id := "GD_001", name := "脆い骨格", rank := .Common, category := .genetic_disease,
      capacity := 0, bonuses := [], penalties := [("maxHp", -0.25)] }
  , { id := "GD_002", name := "感覚鈍麻", rank := .Common, category := .genetic_disease,
      capacity := 0, bonuses := [], penalties := [("attackSpeed", -0.20)] }
  , { id := "GD_003", name := "エネルギー漏出", rank := .Common, category := .genetic_disease,
      capacity := 0, bonuses := [], penalties := [("hpDecayPerSec", 0.01)] }
  , { id := "GD_004", name := "傷口が開く", rank := .Common, category := .genetic_disease,
      capacity := 0, bonuses := [], penalties := [("maxHpDecayPerWave", 0.05)] } ]

/-- A synergy pair (display fields omitted). -/
structure SynergyPair where
  traitA : String
  traitB : String
  resultName : String
  bonuses : List (String × ℝ)

/-- SYNERGY_PAIRS, in source order. -/
def SYNERGY_PAIRS : List SynergyPair :=
  [ { traitA := "ELT_002", traitB := "ELT_003", resultName := "絶対零度",
      bonuses := [("freezeChance", 0.05)] }
  , { traitA := "ELT_001", traitB := "SST_001", resultName := "超新星",
      bonuses := [("attack", 1.00)] }
  , { traitA := "SST_003", traitB := "MUT_002", resultName := "血の渇望",
      bonuses := [("lifesteal", 0.20)] }
  , { traitA := "SST_004", traitB := "MUT_001", resultName := "修羅",
      bonuses := [("attack", 1.00)] }
  , { traitA := "MUT_004", traitB := "SST_003", resultName := "死食い",
      bonuses := [("dotOnHit", 0.01)] } ]

/-- TraitSystem.getTraitDef: find a definition by id (undefined = none). -/
def getTraitDef (id : String) : Option TraitDefinition :=
  TRAIT_LIBRARY.find? (fun t => t.id == id)

/-- JS truthiness of an optional numeric field: present and nonzero. -/
def jsTruthy : Option ℝ → Prop
  | some v => v ≠ 0
  | Option.none => False

instance : DecidablePred jsTruthy := by
  intro o
  cases o with
  | none => exact isFalse (fun h => h)
  | some v => exact inferInstanceAs (Decidable (v ≠ 0))

/-- Stable insertion of one element into a list sorted by key `f` (a later
element goes after earlier elements of equal key, as JS's stable sort
places it). -/
def insertByLt {α : Type} (f : α → ℝ) (a : α) : List α → List α
  | [] => [a]
  | b :: bs => if f a < f b then a :: b :: bs else b :: insertByLt f a bs

/-- Stable ascending sort by a numeric key (the JS stable `Array.sort` with
a key-difference comparator). -/
def stableSortByKey {α : Type} (f : α → ℝ) (l : List α) : List α :=
  l.foldl (fun acc a => insertByLt f a acc) []

/-- The source's stable sort of traits by rank capacity (ascending). -/
def sortTraitsByCapacity (ts : List TraitInstance) : List TraitInstance :=
  stableSortByKey (fun x => rankCapacity x.rank) ts

/-- The capacity-overflow eviction loop of applyTraits: while the summed
capacity exceeds the limit, remove the first lowest-capacity trait and
record its id.  The fuel is the list length (each pass removes one trait),
so the loop is exact.  The source removes `sortedByRank[0]` by object
identity; the traits in any one list are distinct objects, so this is the
first structurally-equal occurrence (`List.erase`). -/
def evictLoop : ℕ → List TraitInstance → ℝ → List String → List TraitInstance × List String
  | 0, ts, _, lost => (ts, lost)
  | fuel + 1, ts, totalCap, lost =>
    if totalCap > capacityLimit ∧ ts ≠ [] then
      match sortTraitsByCapacity ts with
      | [] => (ts, lost)
      | removed :: _ =>
        evictLoop fuel (ts.erase removed) (totalCap - rankCapacity removed.rank)
          (lost ++ [removed.defId])
    else (ts, lost)

/-- A per-stat accumulator in key insertion order (the JS
`Record<string, number[]>`). -/
abbrev StatAccum := List (String × List ℝ)

/-- Push one value onto a key's list, creating the key at the end if new. -/
def pushStat (acc : StatAccum) (key : String) (v : ℝ) : StatAccum :=
  if acc.any (fun kv => kv.1 == key) then
    acc.map (fun kv => if kv.1 == key then (kv.1, kv.2 ++ [v]) else kv)
  else acc ++ [(key, [v])]

/-- Collect one trait's bonus and penalty entries into the accumulators,
skipping unresolvable definitions and inactive berserk traits. -/
def collectTrait (berserkActive : Bool) (accs : StatAccum × StatAccum)
    (t : TraitInstance) : StatAccum × StatAccum :=
  match getTraitDef t.defId with
  | Option.none => accs
  | some td =>
    if jsTruthy td.berserkThreshold ∧ berserkActive = false then accs
    else
      (td.bonuses.foldl (fun a kv => pushStat a kv.1 kv.2) accs.1,
       td.penalties.foldl (fun a kv => pushStat a kv.1 kv.2) accs.2)

/-- applyTraits' applyMod: one stat key, with diminishing-returns stacking
when the same stat is hit more than once.  The source's attackSpeed case
multiplies by 1/(1+finalVal) in both the bonus and the penalty branch. -/
def applyMod (stats : CombatStats) (key : String) (values : List ℝ) (isBonus : Bool) :
    CombatStats :=
  let v0 := values.getD 0 0
  let totalEffect :=
    if values.length = 1 then v0
    else (if isBonus then (1 : ℝ) else -1) * calcStackedEffect |v0| values.length
  let finalVal := if isBonus then totalEffect else -|totalEffect|
  if key = "attack" then { stats with attack := stats.attack * (1 + finalVal) }
  else if key = "defense" then { stats with defense := stats.defense * (1 + finalVal) }
  else if key = "maxHp" then { stats with maxHp := stats.maxHp * (1 + finalVal) }
  else if key = "attackSpeed" then
    { stats with attackSpeed := stats.attackSpeed * (1 / (1 + finalVal)) }
  else if key = "fireResist" then
    { stats with fireResist := min 0.95 (max 0 (stats.fireResist + finalVal)) }
  else if key = "iceResist" then
    { stats with iceResist := min 0.95 (max 0 (stats.iceResist + finalVal)) }
  else if key = "lightningResist" then
    { stats with lightningResist := min 0.95 (max 0 (stats.lightningResist + finalVal)) }
  else stats

/-- The record applyTraits returns. -/
structure ApplyTraitsResult where
  stats : CombatStats
  activeTraits : List TraitInstance
  lostTraits : List String
  activeSynergies : List String

/-- TraitSystem.applyTraits: slot cap, capacity eviction, accumulation,
synergies, diminishing-returns application, and the final stat floors. -/
def applyTraits (baseStats : CombatStats) (traits : List TraitInstance)
    (berserkActive : Bool := false) : ApplyTraitsResult :=
  let activeTraits0 := traits.take maxSlots
  let totalCap := (activeTraits0.map (fun t => rankCapacity t.rank)).sum
  let ev := evictLoop activeTraits0.length activeTraits0 totalCap []
  let activeTraits := ev.1
  let accs := activeTraits.foldl (collectTrait berserkActive) ([], [])
  let traitIds := activeTraits.map (fun t => t.defId)
  let syn := SYNERGY_PAIRS.foldl
    (fun (st : List String × StatAccum) s =>
      if s.traitA ∈ traitIds ∧ s.traitB ∈ traitIds then
        (st.1 ++ [s.resultName], s.bonuses.foldl (fun a kv => pushStat a kv.1 kv.2) st.2)
      else st)
    ([], accs.1)
  let stats1 := syn.2.foldl (fun st kv => applyMod st kv.1 kv.2 true) baseStats
  let stats2 := accs.2.foldl (fun st kv => applyMod st kv.1 kv.2 false) stats1
  let stats :=
    { stats2 with
      attack := max 1 stats2.attack
      defense := max 0 stats2.defense
      maxHp := max 10 stats2.maxHp
      attackSpeed := max 0.1 (min 3.0 stats2.attackSpeed) }
  { stats := stats, activeTraits := activeTraits, lostTraits := ev.2,
    activeSynergies := syn.1 }

/-- The aggregated extra combat effects of getTraitCombatEffects. -/
structure TraitEffects where
  lifesteal : ℝ := 0
  thornDmg : ℝ := 0
  dotOnHit : ℝ := 0
  hpDecayPerSec : ℝ := 0
  maxHpDecayPerWave : ℝ := 0
  berserkThreshold : ℝ := 0
  selfDestructChance : ℝ := 0

/-- TraitSystem.getTraitCombatEffects: sum the hook effects over the traits
(each `if (x)` guard is JS truthiness: present and nonzero). -/
def getTraitCombatEffects (traits : List TraitInstance) : TraitEffects :=
  traits.foldl
    (fun eff t =>
      match getTraitDef t.defId with
      | Option.none => eff
      | some td =>
        let eff := match td.bonuses.lookup "lifesteal" with
          | some v => if v ≠ 0 then { eff with lifesteal := eff.lifesteal + v } else eff
          | Option.none => eff
        let eff := match td.bonuses.lookup "thornDmg" with
          | some v => if v ≠ 0 then { eff with thornDmg := eff.thornDmg + v } else eff
          | Option.none => eff
        let eff := match td.bonuses.lookup "dotOnHit" with
          | some v => if v ≠ 0 then { eff with dotOnHit := eff.dotOnHit + v } else eff
          | Option.none => eff
        let eff := match td.penalties.lookup "hpDecayPerSec" with
          | some v => if v ≠ 0 then { eff with hpDecayPerSec := eff.hpDecayPerSec + v } else eff
          | Option.none => eff
        let eff := match td.penalties.lookup "maxHpDecayPerWave" with
          | some v =>
            if v ≠ 0 then { eff with maxHpDecayPerWave := eff.maxHpDecayPerWave + v } else eff
          | Option.none => eff
        let eff := match td.berserkThreshold with
          | some v => if v ≠ 0 then { eff with berserkThreshold := v } else eff
          | Option.none => eff
        let eff := match td.mutationChance with
          | some v =>
            if v ≠ 0 then { eff with selfDestructChance := eff.selfDestructChance + v } else eff
          | Option.none => eff
        eff)
    {}

/-- A placeholder definition for out-of-range pool indexing (never read on
the draws' actual range). -/
def dummyTraitDef : TraitDefinition :=
  { id := "", name := "", rank := .Common, category := .pure_positive,
    capacity := 0, bonuses := [], penalties := [] }

/-- The roulette loop of rollTraitOnMutation. -/
def rollTraitLoop : List TraitDefinition → List ℝ → ℝ → Option TraitInstance
  | [], _, _ => Option.none
  | t :: ts, w :: ws, roll =>
    let roll := roll - w
    if roll ≤ 0 then some { defId := t.id, rank := t.rank, source := .mutation }
    else rollTraitLoop ts ws roll
  | _ :: _, [], _ => Option.none

/-- TraitSystem.rollTraitOnMutation: 12% gate, then a rarity-weighted
roulette over the pure-positive pool. -/
def rollTraitOnMutation (rng : Rng) : Option TraitInstance × Rng :=
  let r := rng.next
  if r.1 > purePositiveMutationChance then (Option.none, r.2)
  else
    let pool := TRAIT_LIBRARY.filter (fun t => t.category == TraitCategory.pure_positive)
    let weights := pool.map (fun t =>
      match t.rank with
      | .Common => (50 : ℝ)
      | .Rare => 25
      | .Epic => 10
      | .Legendary => 3)
    let totalWeight := weights.sum
    let r2 := r.2.next
    (rollTraitLoop pool weights (r2.1 * totalWeight), r2.2)

/-- TraitSystem.rollDiseaseOnInbreed: chance COI × 40% for one uniformly
chosen disease, plus a possible distinct second disease at high COI. -/
def rollDiseaseOnInbreed (coi : ℝ) (rng : Rng) : List TraitInstance × Rng :=
  let chance := coi * diseaseBaseChance
  let r := rng.next
  if r.1 < chance then
    let pool := TRAIT_LIBRARY.filter (fun t => t.category == TraitCategory.genetic_disease)
    let r2 := r.2.next
    let disease := pool.getD (Int.toNat ⌊r2.1 * pool.length⌋) dummyTraitDef
    let first : TraitInstance := { defId := disease.id, rank := disease.rank, source := .inherited }
    if coi > 0.35 then
      let r3 := r2.2.next
      if r3.1 < coi * 0.30 then
        let r4 := r3.2.next
        let second := pool.getD (Int.toNat ⌊r4.1 * pool.length⌋) dummyTraitDef
        if second.id ≠ disease.id then
          ([first, { defId := second.id, rank := second.rank, source := .inherited }], r4.2)
        else ([first], r4.2)
      else ([first], r3.2)
    else ([first], r2.2)
  else ([], r.2)

/-- The parent-trait inheritance loop of resolveTraitInheritance: skip
duplicates, stop at the slot cap, skip unresolvable definitions, and roll
each trait's category-specific inheritance chance. -/
def inheritLoop (coi : ℝ) : List TraitInstance → List TraitInstance → List String → Rng →
    List TraitInstance × List String × Rng
  | [], child, used, rng => (child, used, rng)
  | t :: ts, child, used, rng =>
    if t.defId ∈ used then inheritLoop coi ts child used rng
    else if child.length ≥ maxSlots then (child, used, rng)
    else
      match getTraitDef t.defId with
      | Option.none => inheritLoop coi ts child used rng
      | some td =>
        let inheritChance :=
          if td.category = .pure_positive then 0.20 * (1 + coi * 2)
          else if td.category = .genetic_disease then 0.50 + coi * 0.30
          else 0.30 * (1 + coi)
        let r := rng.next
        if r.1 < inheritChance then
          inheritLoop coi ts
            (child ++ [{ defId := t.defId, rank := t.rank, source := .inherited }])
            (used ++ [t.defId]) r.2
        else inheritLoop coi ts child used r.2

/-- Add the freshly rolled inbreeding diseases, stopping at the slot cap. -/
def addDiseases : List TraitInstance → List TraitInstance → List String →
    List TraitInstance × List String
  | [], child, used => (child, used)
  | d :: ds, child, used =>
    if child.length ≥ maxSlots then (child, used)
    else if d.defId ∉ used then addDiseases ds (child ++ [d]) (used ++ [d.defId])
    else addDiseases ds child used

/-- TraitSystem.resolveTraitInheritance: merge both parents' traits with
category- and COI-dependent chances, roll new inbreeding diseases (only
when COI > 0), then a possible mutation-triggered pure-positive trait. -/
def resolveTraitInheritance (parentATraits parentBTraits : List TraitInstance)
    (coi : ℝ) (rng : Rng) : List TraitInstance × Rng :=
  let l1 := inheritLoop coi (parentATraits ++ parentBTraits) [] [] rng
  let l2 :=
    if coi > 0 then
      let nd := rollDiseaseOnInbreed coi l1.2.2
      (addDiseases nd.1 l1.1 l1.2.1, nd.2)
    else ((l1.1, l1.2.1), l1.2.2)
  if l2.1.1.length < maxSlots then
    let mt := rollTraitOnMutation l2.2
    match mt.1 with
    | some m => (if m.defId ∉ l2.1.2 then l2.1.1 ++ [m] else l2.1.1, mt.2)
    | Option.none => (l2.1.1, mt.2)
  else (l2.1.1, l2.2)

-- ========================================================================
-- GeneticEngine.ts / PedigreeSystem.ts: the data model
-- ========================================================================

/-- GENOME_LENGTH. -/
def GENOME_LENGTH : ℕ := 10

/-- The four genetic diseases. -/
inductive GeneticDisease
  | fragile_genome
  | attack_decay
  | element_instability
  | slow_metabolism
deriving DecidableEq, Repr

/-- The disease list both PedigreeSystem.detectInbreeding and
GeneticEngine.breed index uniformly at random. -/
def GENETIC_DISEASES : List GeneticDisease :=
  [.fragile_genome, .attack_decay, .element_instability, .slow_metabolism]

/-- An evolvable item (weapon or captured enemy genome).  Optional fields
are the source's optional fields; the `geneticDisease` field collapses the
source's `undefined` and `null` into `none`.  The display-only
battleMemory and inventory category fields are omitted. -/
structure Item where
  id : String
  genome : Genome
  fitness : ℝ
  generation : ℝ
  parentIds : Option (String × String) := Option.none
  ancestorIds : Option (List String) := Option.none
  bloodlineName : Option String := Option.none
  breedCount : Option ℝ := Option.none
  geneticDisease : Option GeneticDisease := Option.none
  mastery : Option ℝ := Option.none
  lockedGenes : Option (List ℕ) := Option.none
  traits : Option (List TraitInstance) := Option.none
  locked : Option Bool := Option.none

/-- ItemDecoder.getRating: the single ranking authority, a 6-band letter
from DPS plus a weighted defensive score (decode at its default stage
base 100). -/
def getRating (item : Item) : String :=
  let stats := decode item.genome 100
  let dps := stats.attack / stats.attackSpeed
  let tankScore := (stats.maxHp / 500) * 50 + stats.defense * 2
  let score := dps + tankScore * 0.3
  if score > 700 then "SS"
  else if score > 500 then "S"
  else if score > 300 then "A"
  else if score > 150 then "B"
  else if score > 50 then "C"
  else "D"

-- ========================================================================
-- PedigreeSystem.ts
-- ========================================================================

/-- Insertion-order set addition (the JS `Set.add`). -/
def addUnique {α : Type} [DecidableEq α] (l : List α) (x : α) : List α :=
  if x ∈ l then l else l ++ [x]

/-- The parent ids of an item as a list (empty when absent). -/
def parentIdsList (item : Item) : List String :=
  match item.parentIds with
  | some p => [p.1, p.2]
  | Option.none => []

/-- PedigreeSystem.buildAncestorIds: both parents first, then their
ancestor chains, deduplicated in insertion order and capped at 14. -/
def buildAncestorIds (parentA parentB : Item) : List String :=
  let ancestors :=
    ([parentA.id, parentB.id] ++ parentA.ancestorIds.getD [] ++
      parentB.ancestorIds.getD []).foldl addUnique []
  ancestors.take 14

/-- PedigreeSystem's transient inbreeding computation result. -/
structure InbreedResult where
  isInbred : Bool
  sharedAncestors : List String
  coefficient : ℝ
  fixedGenes : List ℕ
  geneticDisease : Option GeneticDisease := Option.none

/-- PedigreeSystem.selectInbreedFixedGenes: the gene indices where the
parents differ by less than 0.15, most similar first (stable sort), at most
min(3, ceil(coefficient*4)) of them. -/
def selectInbreedFixedGenes (genomeA genomeB : Genome) (coefficient : ℝ) : List ℕ :=
  let similarities := (List.range GENOME_LENGTH).filterMap (fun i =>
    let diff := |genomeA.getD i 0 - genomeB.getD i 0|
    if diff < 0.15 then some (i, diff) else Option.none)
  let sorted := stableSortByKey (fun s : ℕ × ℝ => s.2) similarities
  let maxFixed := min 3 (Int.toNat ⌈coefficient * 4⌉)
  (sorted.take maxFixed).map (fun s => s.1)

/-- PedigreeSystem.detectInbreeding: shared-ancestor detection (ancestor
chains plus immediate parent ids, plus the parent-of-parent check), the
coefficient |shared| / max(|A|, |B|, 1) clamped to 1, the fixed genes, and
the disease roll (draws are consumed only above coefficient 0.25). -/
def detectInbreeding (parentA parentB : Item) (rng : Rng) : InbreedResult × Rng :=
  let ancestorsA := (parentA.ancestorIds.getD [] ++ parentIdsList parentA).foldl addUnique []
  let ancestorsB := (parentB.ancestorIds.getD [] ++ parentIdsList parentB).foldl addUnique []
  let shared := ancestorsA.filter (fun id => ancestorsB.contains id)
  let shared := shared ++ (if ancestorsB.contains parentA.id then [parentA.id] else [])
  let shared := shared ++ (if ancestorsA.contains parentB.id then [parentB.id] else [])
  let sharedAncestors := shared.foldl addUnique []
  if sharedAncestors.length = 0 then
    ({ isInbred := false, sharedAncestors := [], coefficient := 0, fixedGenes := [],
       geneticDisease := Option.none }, rng)
  else
    let maxPossible := max (max ancestorsA.length ancestorsB.length) 1
    let coefficient := min 1.0 ((sharedAncestors.length : ℝ) / (maxPossible : ℝ))
    let fixedGenes := selectInbreedFixedGenes parentA.genome parentB.genome coefficient
    if coefficient > 0.25 then
      let diseaseChance := if coefficient > 0.5 then 0.5 else coefficient * 0.3
      let r := rng.next
      if r.1 < diseaseChance then
        let r2 := r.2.next
        ({ isInbred := true, sharedAncestors := sharedAncestors, coefficient := coefficient,
           fixedGenes := fixedGenes,
           geneticDisease := some (GENETIC_DISEASES.getD (Int.toNat ⌊r2.1 * 4⌋) .fragile_genome) },
         r2.2)
      else
        ({ isInbred := true, sharedAncestors := sharedAncestors, coefficient := coefficient,
           fixedGenes := fixedGenes, geneticDisease := Option.none }, r.2)
    else
      ({ isInbred := true, sharedAncestors := sharedAncestors, coefficient := coefficient,
         fixedGenes := fixedGenes, geneticDisease := Option.none }, rng)

/-- PedigreeSystem.applyInbreedEffects: average the fixed genes from the
parents, apply the disease's genome perturbation (element instability draws
a fresh element gene), and the deep-inbreeding stat boost above
coefficient 0.5. -/
def applyInbreedEffects (childGenome : Genome) (parentA parentB : Item)
    (inbreed : InbreedResult) (rng : Rng) : Genome × Rng :=
  let result := inbreed.fixedGenes.foldl
    (fun g idx => g.set idx ((parentA.genome.getD idx 0 + parentB.genome.getD idx 0) / 2))
    childGenome
  let dres : Genome × Rng :=
    match inbreed.geneticDisease with
    | some .fragile_genome => (result.set 4 (max 0 (result.getD 4 0 * 0.7)), rng)
    | some .attack_decay => (result.set 0 (max 0 (result.getD 0 0 * 0.85)), rng)
    | some .element_instability =>
      let r := rng.next
      (result.set 2 r.1, r.2)
    | some .slow_metabolism => (result.set 1 (max 0 (result.getD 1 0 * 0.75)), rng)
    | Option.none => (result, rng)
  if inbreed.coefficient > 0.5 then
    let maxGen := max (max parentA.generation parentB.generation) 1
    let coiBoost := diminishingReturns 0.15 maxGen
    (dres.1.map (fun x => min 1 (x * (1 + coiBoost))), dres.2)
  else dres

-- ── Bloodline name generation (deterministic in the item id and genome) ──

/-- ELEMENT_TITLES: (strong, normal) title pools per element. -/
def ELEMENT_TITLES : ElementType → List String × List String
  | .Fire => (["灼熱の", "紅蓮の", "焔帝の"], ["火燐の", "赤熱の"])
  | .Ice => (["凍王の", "氷牙の", "極寒の"], ["霜剣の", "蒼氷の"])
  | .Lightning => (["雷光の", "迅雷の", "轟雷の"], ["電閃の", "紫電の"])

/-- SPECIAL_TITLES: the partial record over special abilities. -/
def SPECIAL_TITLES : SpecialAbility → Option (List String)
  | .chain_explosion => some ["爆砕の", "連鎖の", "崩壊の"]
  | .homing => some ["追尾の", "必中の"]
  | .piercing => some ["貫通の", "穿孔の"]
  | .none => Option.none

/-- GENERATION_TITLES. -/
def GENERATION_TITLES : List String := ["古血の", "名家の", "覇統の"]

/-- HIGH_STAT_TITLES: (gene index, threshold, titles). -/
def HIGH_STAT_TITLES : List (ℕ × ℝ × List String) :=
  [ (0, 0.85, ["破壊の", "剛力の"])
  , (4, 0.85, ["不滅の", "鋼体の"])
  , (6, 0.85, ["守護の", "盾王の"])
  , (7, 0.85, ["策士の", "千変の"]) ]

/-- PROPER_NAMES pool. -/
def PROPER_NAMES : List String :=
  [ "シグルド", "ブリュンヒルデ", "ティルフィング", "グングニル"
  , "ミョルニル", "レーヴァテイン", "ダインスレイヴ", "エクスカリバー"
  , "グラム", "フルンティング", "カラドボルグ", "デュランダル"
  , "アスカロン", "ゲイボルグ", "ブリューナク", "トネリコ"
  , "ヘルモーズ", "フレスベルグ", "ニーベルング", "ヴァルキリー"
  , "ファフニール", "ベオウルフ", "ジークフリート", "ランスロット"
  , "アロンダイト", "クラウソラス", "フラガラッハ", "アンサラー"
  , "ハルバード", "ロンギヌス", "アスクレピオス", "オーディン" ]

/-- Signed 32-bit wraparound (the JS `| 0`). -/
def toInt32 (n : ℤ) : ℤ := (n + 2 ^ 31) % 2 ^ 32 - 2 ^ 31

/-- PedigreeSystem.hashIndex: the JS hash
`hash = ((hash << 5) - hash + charCode) | 0` folded over the salted id,
then its absolute value.  The shift operates on the int32 value (hash is
int32 after each step), and the embedded ids are ASCII, where Lean's
character values coincide with JS UTF-16 code units. -/
def hashIndex (str salt : String) : ℕ :=
  ((str ++ salt).toList.foldl
    (fun hash ch => toInt32 (toInt32 (hash * 32) - hash + ch.toNat)) 0).natAbs

/-- PedigreeSystem.selectProperName. -/
def selectProperName (id : String) : String :=
  PROPER_NAMES.getD (hashIndex id "name" % PROPER_NAMES.length) ""

/-- PedigreeSystem.selectTitle: special-ability titles, then high-stat
titles, then generation titles (gen ≥ 5), then element titles. -/
def selectTitle (item : Item) (stats : CombatStats) : String :=
  match SPECIAL_TITLES stats.special with
  | some titles => titles.getD (hashIndex item.id "special" % titles.length) ""
  | Option.none =>
    match HIGH_STAT_TITLES.find? (fun hst => decide (item.genome.getD hst.1 0 ≥ hst.2.1)) with
    | some hst => hst.2.2.getD (hashIndex item.id ("stat" ++ toString hst.1) % hst.2.2.length) ""
    | Option.none =>
      if item.generation ≥ 5 then
        GENERATION_TITLES.getD (hashIndex item.id "gen" % GENERATION_TITLES.length) ""
      else
        let elemTitles := ELEMENT_TITLES stats.element
        let isStrong := item.genome.getD 0 0 > 0.7 ∨ item.genome.getD 1 0 > 0.7
        let pool := if isStrong then elemTitles.1 else elemTitles.2
        pool.getD (hashIndex item.id "elem" % pool.length) ""

/-- PedigreeSystem.generateBloodlineName: title + proper name, with the
lineage form for a deep ancestor chain. -/
def generateBloodlineName (item : Item) : String :=
  let stats := decode item.genome 100
  let title := selectTitle item stats
  let properName := selectProperName item.id
  match item.parentIds, item.ancestorIds with
  | some _, some anc =>
    if anc.length > 2 ∧ anc.length ≥ 4 then
      selectProperName (anc.getD 0 "") ++ "の直系・" ++ title ++ properName
    else title ++ properName
  | _, _ => title ++ properName

-- ========================================================================
-- GeneticEngine.ts: crossover, mutation, selection, breed
-- ========================================================================

/-- The element-wise recursion of GeneticEngine.crossover: one draw per
gene of parent A; below 0.5 keep parent A's gene, else take parent B's. -/
def crossoverAux (parentB : Genome) : ℕ → Genome → Rng → Genome × Rng
  | _, [], rng => ([], rng)
  | i, g :: rest, rng =>
    let r := rng.next
    let gene := if r.1 < 0.5 then g else parentB.getD i 0
    let restOut := crossoverAux parentB (i + 1) rest r.2
    (gene :: restOut.1, restOut.2)

/-- GeneticEngine.crossover: uniform per-gene 50/50 crossover. -/
def crossover (parentA parentB : Genome) (rng : Rng) : Genome × Rng :=
  crossoverAux parentB 0 parentA rng

/-- The element-wise recursion of GeneticEngine.mutate.  A locked index is
returned unchanged with no draw; otherwise one draw decides whether the
gene mutates, and a mutating gene either fully re-randomizes (second draw
below 0.5, third draw is the new value) or is perturbed by a signed,
generation-biased magnitude (direction and magnitude draws), clamped. -/
def mutateAux (rate generation : ℝ) (lockedGenes : List ℕ) :
    ℕ → Genome → Rng → Genome × Rng
  | _, [], rng => ([], rng)
  | idx, g :: rest, rng =>
    if idx ∈ lockedGenes then
      let r := mutateAux rate generation lockedGenes (idx + 1) rest rng
      (g :: r.1, r.2)
    else
      let m := rng.next
      if m.1 < rate then
        let negativeBias := min 0.7 (0.5 + generation * 0.02)
        let c := m.2.next
        if c.1 < 0.5 then
          let v := c.2.next
          let r := mutateAux rate generation lockedGenes (idx + 1) rest v.2
          (v.1 :: r.1, r.2)
        else
          let dr := c.2.next
          let direction : ℝ := if dr.1 < negativeBias then -1 else 1
          let mag := dr.2.next
          let r := mutateAux rate generation lockedGenes (idx + 1) rest mag.2
          (max 0 (min 1 (g + direction * (mag.1 * 0.3))) :: r.1, r.2)
      else
        let r := mutateAux rate generation lockedGenes (idx + 1) rest m.2
        (g :: r.1, r.2)

/-- GeneticEngine.mutate. -/
def mutate (genome : Genome) (rate : ℝ := 0.04) (generation : ℝ := 1)
    (lockedGenes : List ℕ := []) (rng : Rng) : Genome × Rng :=
  mutateAux rate generation lockedGenes 0 genome rng

/-- A placeholder item for the (provably in-range) last-element access of
selectParent. -/
def dummyItem : Item := { id := "", genome := [], fitness := 0, generation := 1 }

/-- The roulette loop of selectParent: subtract each (floored) fitness and
return the first item that takes the running value to ≤ 0. -/
def selectLoop (r : ℝ) : List Item → Option Item
  | [] => Option.none
  | it :: rest =>
    let r' := r - max 0.01 it.fitness
    if r' ≤ 0 then some it else selectLoop r' rest

/-- GeneticEngine.selectParent: fitness-proportional roulette selection.
The thrown `Error('Population is empty')` is the `Except.error`. -/
def selectParent (population : List Item) (rng : Rng) : Except String Item × Rng :=
  if population.length = 0 then (Except.error "Population is empty", rng)
  else
    let totalFitness := (population.map (fun it => max 0.01 it.fitness)).sum
    let r := rng.next
    match selectLoop (r.1 * totalFitness) population with
    | some it => (Except.ok it, r.2)
    | Option.none => (Except.ok (population.getLastD dummyItem), r.2)

/-- The manual gene-lock pass of breed: a locked in-range index always
inherits parent A's gene (indices are naturals, so the source's
`idx >= 0` guard is implicit). -/
def applyGeneLocks (childGenome parentGenome : Genome) (lockedGenes : List ℕ) : Genome :=
  lockedGenes.foldl
    (fun g idx => if idx < GENOME_LENGTH then g.set idx (parentGenome.getD idx 0) else g)
    childGenome

/-- The rank-upgrade table of breed's mastery bonus. -/
def rankUpgrade : TraitRank → Option TraitRank
  | .Common => some .Rare
  | .Rare => some .Epic
  | .Epic => some .Legendary
  | .Legendary => Option.none

/-- Breed's mastery trait upgrade: each upgradable trait rolls one draw and
upgrades a rank on a draw below 0.05 (a Legendary trait rolls no draw). -/
def upgradeTraits : List TraitInstance → Rng → List TraitInstance × Rng
  | [], rng => ([], rng)
  | t :: ts, rng =>
    match rankUpgrade t.rank with
    | some nextRank =>
      let r := rng.next
      let t' := if r.1 < 0.05 then { t with rank := nextRank } else t
      let rest := upgradeTraits ts r.2
      (t' :: rest.1, rest.2)
    | Option.none =>
      let rest := upgradeTraits ts rng
      (t :: rest.1, rest.2)

/-- The child id.  The source's id is
`chimera_${Date.now()}_${random base36 suffix}`: `Date.now()` is the
injected `now` and the suffix's draw is consumed by `breed` (a real has no
base36 rendering; only the id's uniqueness matters downstream). -/
def mkChildId (now : ℕ) : String := "chimera_" ++ toString now

/-- The mastery-bonus tail of breed: genetic fatigue (when the child has no
disease: chance (maxParentBreeds × 0.12)^1.5, reduced 20% for high-mastery
parents, rolled only when a parent has bred), or the 20% high-mastery
disease cure, then the high-mastery trait rank upgrades — with the JS
short-circuit draw consumption preserved. -/
def applyBreedBonuses (child : Item) (avgMastery maxParentBreeds : ℝ) (rng : Rng) :
    Item × Rng :=
  let fat : Item × Rng :=
    if child.geneticDisease = Option.none then
      let fatigueChance0 := (maxParentBreeds * 0.12) ^ (1.5 : ℝ)
      let fatigueChance := if avgMastery ≥ 80 then fatigueChance0 * 0.8 else fatigueChance0
      if maxParentBreeds > 0 then
        let r := rng.next
        if r.1 < fatigueChance then
          let r2 := r.2.next
          let d := GENETIC_DISEASES.getD (Int.toNat ⌊r2.1 * 4⌋) .fragile_genome
          ({ child with geneticDisease := some d }, r2.2)
        else (child, r.2)
      else (child, rng)
    else
      if avgMastery ≥ 80 then
        let r := rng.next
        if r.1 < 0.20 then ({ child with geneticDisease := Option.none }, r.2)
        else (child, r.2)
      else (child, rng)
  if avgMastery ≥ 80 then
    let u := upgradeTraits (fat.1.traits.getD []) fat.2
    ({ fat.1 with traits := some u.1 }, u.2)
  else fat

/-- GeneticEngine.breed: the single orchestrating transaction.  Crossover,
manual gene locks, inbreeding detection and effects (merging fixed genes
into the lock set), entropy-escalated mutation, soft cap, ancestor chain,
trait inheritance, the child record, the fatigue/cure/upgrade tail
(applyBreedBonuses), and the bloodline name, in source order.  Draws are
consumed in the source's exact order. -/
def breed (parentA parentB : Item) (mutationRate : ℝ := 0.06)
    (lockedGenes : List ℕ := []) (now : ℕ) (rng : Rng) : Item × Rng :=
  let generation := max parentA.generation parentB.generation + 1
  let entropyRate := mutationRate + generation * 0.005
  let cg0 := crossover parentA.genome parentB.genome rng
  let cg1 := applyGeneLocks cg0.1 parentA.genome lockedGenes
  let inb := detectInbreeding parentA parentB cg0.2
  let inbreed := inb.1
  let step2 : Genome × List ℕ × Rng :=
    if inbreed.isInbred then
      let allLocked := (lockedGenes ++ inbreed.fixedGenes).foldl addUnique []
      let ae := applyInbreedEffects cg1 parentA parentB inbreed inb.2
      (ae.1, allLocked, ae.2)
    else (cg1, lockedGenes, inb.2)
  let mg := mutate step2.1 entropyRate generation step2.2.1 step2.2.2
  let childGenome := applySoftCap mg.1
  let ancestorIds := buildAncestorIds parentA parentB
  let rt := resolveTraitInheritance (parentA.traits.getD []) (parentB.traits.getD [])
    inbreed.coefficient mg.2
  let idDraw := rt.2.next
  let child : Item :=
    { id := mkChildId now
      genome := childGenome
      fitness := 0
      generation := generation
      parentIds := some (parentA.id, parentB.id)
      ancestorIds := some ancestorIds
      breedCount := some 0
      geneticDisease := inbreed.geneticDisease
      traits := some rt.1 }
  let avgMastery := (parentA.mastery.getD 0 + parentB.mastery.getD 0) / 2
  let maxParentBreeds := max (parentA.breedCount.getD 0) (parentB.breedCount.getD 0)
  let ab := applyBreedBonuses child avgMastery maxParentBreeds idDraw.2
  ({ ab.1 with bloodlineName := some (generateBloodlineName ab.1) }, ab.2)

-- ========================================================================
-- TextBattleEngine.ts: tick-based auto battle
-- ========================================================================

/-- One mutation skill entry. -/
structure MutationSkill where
  name : String
  damageMultiplier : ℝ
  aoe : Bool
  element : Option ElementType := Option.none

/-- MUTATION_SKILLS, in source order. -/
def MUTATION_SKILLS : List MutationSkill :=
  [ { name := "連鎖爆発", damageMultiplier := 0.4, aoe := true }
  , { name := "プラズマバースト", damageMultiplier := 2.0, aoe := false, element := some .Lightning }
  , { name := "絶対零度", damageMultiplier := 1.5, aoe := false, element := some .Ice }
  , { name := "業火", damageMultiplier := 1.5, aoe := false, element := some .Fire }
  , { name := "遺伝子共鳴", damageMultiplier := 1.8, aoe := false } ]

/-- A dummy skill for the (provably in-range) skill-table access. -/
def dummySkill : MutationSkill := { name := "", damageMultiplier := 0, aoe := false }

/-- A combatant: derived stats, current HP and an action cooldown (the
display name and actor tag are log-only and omitted). -/
structure Combatant where
  stats : CombatStats
  currentHp : ℝ
  cooldown : ℝ

/-- getResistance: the target's resistance against an incoming element. -/
def getResistance (target : Combatant) (element : ElementType) : ℝ :=
  match element with
  | .Fire => target.stats.fireResist
  | .Ice => target.stats.iceResist
  | .Lightning => target.stats.lightningResist

/-- selectAction: a 3-way weighted random choice from the normalized AI
weights, with the defense weight amplified by the defense-instinct gene
below 30% HP.  Exactly one draw. -/
def selectAction (actor : Combatant) (genome : Genome) (rng : Rng) : ActionType × Rng :=
  let hpRatio := actor.currentHp / actor.stats.maxHp
  let atkWeight := actor.stats.aggressionWeight
  let defWeight0 := actor.stats.defenseWeight
  let skillWeight0 := actor.stats.tacticalWeight
  let defWeight := if hpRatio < 0.3 then defWeight0 * (1 + genome.getD 6 0 * 3) else defWeight0
  let total := atkWeight + defWeight + skillWeight0
  let atkW := atkWeight / total
  let skillW := skillWeight0 / total
  let r := rng.next
  (if r.1 < atkW then .attack else if r.1 < atkW + skillW then .skill else .defend, r.2)

/-- The outcome of one executed action: both combatants after the action,
the damage the log entry would carry (none for a defend), and the
remaining draws. -/
structure ExecResult where
  actor : Combatant
  target : Combatant
  damage : Option ℝ
  rng : Rng

/-- executeAction: attack (resistance-reduced, possible critical), skill
(chance of a mutation skill when the actor has a special ability, else the
1.3× elemental skill), or defend (heal 5% of max HP).  Damages round to one
decimal as the source does. -/
def executeAction (actor target : Combatant) (action : ActionType) (genome : Genome)
    (critBonus : ℝ := 0) (rng : Rng) : ExecResult :=
  match action with
  | .attack =>
    let baseDmg := actor.stats.attack
    let resist := getResistance target actor.stats.element
    let dmgAfterResist := baseDmg * (1 - resist * 0.8)
    let r := rng.next
    let isCrit := r.1 < 0.1 + genome.getD 5 0 * 0.1 + critBonus
    let finalDmg := jsRound ((if isCrit then dmgAfterResist * 2 else dmgAfterResist) * 10) / 10
    { actor := actor, target := { target with currentHp := target.currentHp - finalDmg },
      damage := some finalDmg, rng := r.2 }
  | .skill =>
    let r := rng.next
    let hasMutation := r.1 < genome.getD 7 0 * 0.4
    if hasMutation ∧ actor.stats.special ≠ .none then
      let r2 := r.2.next
      let skill := MUTATION_SKILLS.getD (Int.toNat ⌊r2.1 * MUTATION_SKILLS.length⌋) dummySkill
      let skillElement := skill.element.getD actor.stats.element
      let resist := getResistance target skillElement
      let rawDmg := actor.stats.attack * skill.damageMultiplier
      let finalDmg := jsRound (rawDmg * (1 - resist * 0.8) * 10) / 10
      { actor := actor, target := { target with currentHp := target.currentHp - finalDmg },
        damage := some finalDmg, rng := r2.2 }
    else
      let skillDmg := actor.stats.attack * 1.3
      let resist := getResistance target actor.stats.element
      let finalDmg := jsRound (skillDmg * (1 - resist * 0.8) * 10) / 10
      { actor := actor, target := { target with currentHp := target.currentHp - finalDmg },
        damage := some finalDmg, rng := r.2 }
  | .defend =>
    let healAmount := jsRound (actor.stats.maxHp * 0.05 * 10) / 10
    { actor := { actor with currentHp := min actor.stats.maxHp (actor.currentHp + healAmount) },
      target := target, damage := Option.none, rng := rng }

/-- The four ways a battle ends.  The source has no such field: it reports
the reason through the final log message (撃破 / 破壊された / 自壊した /
タイムアウト); this reifies which loop exit fired. -/
inductive EndReason
  | enemyKilled
  | weaponDestroyed
  | weaponSelfDestructed
  | timeout
deriving DecidableEq, Repr

/-- The loop state of runBattle.  `ended` is set by the source's `break`
statements; `ticksUsed` counts executed loop iterations (instrumentation,
not source data).  `resistedDamage` is declared by the source and never
written — kept as the constant it is. -/
structure BattleState where
  weapon : Combatant
  enemy : Combatant
  time : ℝ
  totalDamageDealt : ℝ
  totalDamageTaken : ℝ
  resistedDamage : ℝ
  totalAttempedDamage : ℝ
  berserkActive : Bool
  ended : Option EndReason
  ticksUsed : ℕ
  rng : Rng

/-- Run a phase only when no break has fired yet this tick. -/
def stepIfAlive (f : BattleState → BattleState) (st : BattleState) : BattleState :=
  match st.ended with
  | Option.none => f st
  | some _ => st

/-- The HP-decay trait hook at the top of the tick; a weapon that decays to
zero self-destructs (the 自壊 break). -/
def decayPhase (effects : TraitEffects) (st : BattleState) : BattleState :=
  if effects.hpDecayPerSec > 0 then
    let hp := max 0 (st.weapon.currentHp - st.weapon.stats.maxHp * effects.hpDecayPerSec * 0.1)
    let st := { st with weapon := { st.weapon with currentHp := hp } }
    if hp ≤ 0 then { st with ended := some .weaponSelfDestructed } else st
  else st

/-- The berserk trait hook: a one-time permanent stat swap (attack ×2,
defense 0) at the HP threshold. -/
def berserkPhase (effects : TraitEffects) (st : BattleState) : BattleState :=
  if effects.berserkThreshold > 0 ∧ st.berserkActive = false then
    if st.weapon.currentHp / st.weapon.stats.maxHp ≤ effects.berserkThreshold then
      { st with
        berserkActive := true
        weapon := { st.weapon with stats :=
          { st.weapon.stats with attack := st.weapon.stats.attack * 2, defense := 0 } } }
    else st
  else st

/-- The post-action tail of the weapon phase, from the executed action's
result: the damage bookkeeping (the source's truthiness check
`logEntry.damage` skips a zero damage), the lifesteal and DoT hooks on a
damaging hit, cooldown reset, HP clamps, and the enemy-death break. -/
def weaponStrikeResolve (effects : TraitEffects) (ea : ExecResult) (st : BattleState) :
    BattleState :=
  let hit : Option ℝ := match ea.damage with
    | some d => if d ≠ 0 then some d else Option.none
    | Option.none => Option.none
  let dealt := match hit with
    | some d => st.totalDamageDealt + d
    | Option.none => st.totalDamageDealt
  let weapon1 := match hit with
    | some d =>
      if effects.lifesteal > 0 then
        let hp := min ea.actor.stats.maxHp (ea.actor.currentHp + d * effects.lifesteal)
        { ea.actor with currentHp := hp }
      else ea.actor
    | Option.none => ea.actor
  let enemy1 := match hit with
    | some _ =>
      if effects.dotOnHit > 0 then
        let dotDmg := jsRound (ea.target.stats.maxHp * effects.dotOnHit * 10) / 10
        { ea.target with currentHp := ea.target.currentHp - dotDmg }
      else ea.target
    | Option.none => ea.target
  let weapon2 := { weapon1 with cooldown := weapon1.stats.attackSpeed }
  let enemy2 := { enemy1 with currentHp := max 0 enemy1.currentHp }
  let weapon3 := { weapon2 with currentHp := max 0 weapon2.currentHp }
  let st := { st with weapon := weapon3, enemy := enemy2, totalDamageDealt := dealt, rng := ea.rng }
  if enemy2.currentHp ≤ 0 then { st with ended := some .enemyKilled } else st

/-- The weapon action phase: cooldown tick, then action selection, execution
and resolution (weaponStrikeResolve) when the cooldown has elapsed. -/
def weaponPhase (wg : Genome) (effects : TraitEffects) (masteryCrit : ℝ)
    (st : BattleState) : BattleState :=
  let weapon0 := { st.weapon with cooldown := st.weapon.cooldown - 0.1 }
  if weapon0.cooldown ≤ 0 then
    let sa := selectAction weapon0 wg st.rng
    weaponStrikeResolve effects (executeAction weapon0 st.enemy sa.1 wg masteryCrit sa.2) st
  else { st with weapon := weapon0 }

/-- The source's standalone `if (weapon.currentHp <= 0) break;` between the
two phases (unreachable: the weapon phase never lowers the weapon's own
HP, but kept for fidelity).  The post-loop classification reports a dead
weapon as destroyed. -/
def midCheck (st : BattleState) : BattleState :=
  if st.weapon.currentHp ≤ 0 then { st with ended := some .weaponDestroyed } else st

/-- The post-action tail of the enemy phase, from the executed action's
result: damage bookkeeping, the self-destruct and thorn hooks on a damaging
hit, HP clamps, then the weapon-death break and the thorn-kill break, in
source order. -/
def enemyStrikeResolve (effects : TraitEffects) (ea : ExecResult) (st : BattleState) :
    BattleState :=
  let hit : Option ℝ := match ea.damage with
    | some d => if d ≠ 0 then some d else Option.none
    | Option.none => Option.none
  let taken := match hit with
    | some d => st.totalDamageTaken + d
    | Option.none => st.totalDamageTaken
  let sd : Combatant × Rng := match hit with
    | some _ =>
      if effects.selfDestructChance > 0 then
        let r := ea.rng.next
        if r.1 < effects.selfDestructChance then
          let selfDmg := jsRound (ea.target.stats.maxHp * 0.25)
          ({ ea.target with currentHp := max 0 (ea.target.currentHp - selfDmg) }, r.2)
        else (ea.target, r.2)
      else (ea.target, ea.rng)
    | Option.none => (ea.target, ea.rng)
  let weapon1 := sd.1
  let enemy1 := match hit with
    | some d =>
      if effects.thornDmg > 0 then
        let thornDmg := jsRound (d * effects.thornDmg * 10) / 10
        { ea.actor with currentHp := ea.actor.currentHp - thornDmg }
      else ea.actor
    | Option.none => ea.actor
  let enemy2 := { enemy1 with cooldown := enemy1.stats.attackSpeed }
  let enemy3 := { enemy2 with currentHp := max 0 enemy2.currentHp }
  let weapon2 := { weapon1 with currentHp := max 0 weapon1.currentHp }
  let st := { st with weapon := weapon2, enemy := enemy3, totalDamageTaken := taken, rng := sd.2 }
  if weapon2.currentHp ≤ 0 then { st with ended := some .weaponDestroyed }
  else if enemy3.currentHp ≤ 0 then { st with ended := some .enemyKilled }
  else st

/-- The enemy action phase: cooldown tick, then action selection, execution
and resolution (enemyStrikeResolve) when the cooldown has elapsed. -/
def enemyPhase (eg : Genome) (effects : TraitEffects) (st : BattleState) : BattleState :=
  let enemy0 := { st.enemy with cooldown := st.enemy.cooldown - 0.1 }
  if enemy0.cooldown ≤ 0 then
    let sa := selectAction enemy0 eg st.rng
    enemyStrikeResolve effects (executeAction enemy0 st.weapon sa.1 eg 0 sa.2) st
  else { st with enemy := enemy0 }

/-- One iteration of the battle loop: advance the (two-decimal rounded)
clock, then the decay, berserk, weapon, mid-check and enemy phases, each
skipped once a break has fired, and finally the source's per-tick
adaptation accumulation. -/
def battleTick (wg eg : Genome) (effects : TraitEffects) (masteryCrit : ℝ)
    (st : BattleState) : BattleState :=
  let st := { st with time := jsRound ((st.time + 0.1) * 100) / 100, ticksUsed := st.ticksUsed + 1 }
  let st := decayPhase effects st
  let st := stepIfAlive (berserkPhase effects) st
  let st := stepIfAlive (weaponPhase wg effects masteryCrit) st
  let st := stepIfAlive midCheck st
  let st := stepIfAlive (enemyPhase eg effects) st
  stepIfAlive
    (fun s => { s with totalAttempedDamage := s.totalAttempedDamage + s.totalDamageDealt }) st

/-- The while loop of runBattle, fueled by the number of remaining ticks.
The loop condition is the source's
`time < maxTime && weapon.currentHp > 0 && enemy.currentHp > 0`; a break
inside the tick stops the recursion.  With the fuel runBattle passes the
fuel never truncates the loop: when it reaches 0 the clock has already
reached maxTime (battleLoop_stable below). -/
def battleLoop (wg eg : Genome) (effects : TraitEffects) (masteryCrit : ℝ) (maxTime : ℝ) :
    ℕ → BattleState → BattleState
  | 0, st => st
  | fuel + 1, st =>
    if st.time < maxTime ∧ st.weapon.currentHp > 0 ∧ st.enemy.currentHp > 0 then
      let st' := battleTick wg eg effects masteryCrit st
      match st'.ended with
      | some _ => st'
      | Option.none => battleLoop wg eg effects masteryCrit maxTime fuel st'
    else st

/-- The battle result (the ordered log is presentational and omitted).
`killTime` is `none` for the source's `Infinity` (no win); `endReason` and
`ticksUsed` are the reified terminal reason and the iteration count, see
`EndReason` and `BattleState`. -/
structure BattleResult where
  won : Bool
  killTime : Option ℝ
  damageDealt : ℝ
  damageTaken : ℝ
  damageRatio : ℝ
  adaptationScore : ℝ
  weaponHpRemaining : ℝ
  enemyHpRemaining : ℝ
  endReason : EndReason
  ticksUsed : ℕ

/-- The post-loop aggregation of runBattle: the win test, the kill time
(`none` for the source's Infinity), the damage ratio and adaptation score,
and the terminal-reason classification from the loop's exit. -/
def classifyBattle (f : BattleState) : BattleResult × Rng :=
  let won : Bool := if f.enemy.currentHp ≤ 0 ∧ f.weapon.currentHp > 0 then true else false
  let killTime : Option ℝ := if won then some f.time else Option.none
  let damageRatio :=
    if f.totalDamageTaken > 0 then f.totalDamageDealt / f.totalDamageTaken
    else if f.totalDamageDealt > 0 then 999 else 1
  let adaptationScore :=
    if f.totalAttempedDamage > 0 then
      1.0 - f.resistedDamage / max 1 f.totalAttempedDamage
    else 0.5
  let endReason : EndReason :=
    match f.ended with
    | some r => r
    | Option.none =>
      if won then .enemyKilled
      else if f.weapon.currentHp ≤ 0 then .weaponDestroyed
      else .timeout
  ({ won := won
     killTime := killTime
     damageDealt := f.totalDamageDealt
     damageTaken := f.totalDamageTaken
     damageRatio := damageRatio
     adaptationScore := adaptationScore
     weaponHpRemaining := max 0 f.weapon.currentHp
     enemyHpRemaining := max 0 f.enemy.currentHp
     endReason := endReason
     ticksUsed := f.ticksUsed }, f.rng)

/-- TextBattleEngine.runBattle: decode both genomes at their stage bases,
apply the mastery synchro boost, the traits and the trait hooks to the
weapon, run the 0.1-second tick loop up to maxTime, and aggregate the
result (classifyBattle).  The fuel ⌈maxTime×10⌉ matches the clock (300
ticks at the default 30 seconds). -/
def runBattle (weaponGenome enemyGenome : Genome) (stageLevel : ℝ := 1) (maxTime : ℝ := 30)
    (weaponTraits : List TraitInstance := []) (initialWeaponHp : Option ℝ := Option.none)
    (weaponMastery : ℝ := 0) (rng : Rng) : BattleResult × Rng :=
  let wStats0 := decode weaponGenome (80 + stageLevel * 20)
  let eStats := decode enemyGenome (60 + stageLevel * 15)
  let synchroMult := masterySynchroBoost weaponMastery
  let wStats1 := { wStats0 with attack := wStats0.attack * synchroMult, defense := wStats0.defense * synchroMult }
  let masteryCrit := masteryCritBonus weaponMastery
  let traitResult := applyTraits wStats1 weaponTraits false
  let wStats := traitResult.stats
  let traitEffects := getTraitCombatEffects weaponTraits
  let initialHp := match initialWeaponHp with
    | some h => min h wStats.maxHp
    | Option.none => wStats.maxHp
  let weapon : Combatant := { stats := wStats, currentHp := initialHp, cooldown := 0 }
  let enemy : Combatant := { stats := eStats, currentHp := eStats.maxHp, cooldown := 0.3 }
  let st0 : BattleState :=
    { weapon := weapon
      enemy := enemy
      time := 0
      totalDamageDealt := 0
      totalDamageTaken := 0
      resistedDamage := 0
      totalAttempedDamage := 0
      berserkActive := false
      ended := Option.none
      ticksUsed := 0
      rng := rng }
  classifyBattle (battleLoop weaponGenome enemyGenome traitEffects masteryCrit maxTime
    (Int.toNat ⌈maxTime * 10⌉) st0)

-- ========================================================================
-- FastSimulator.ts
-- ========================================================================

/-- The aggregates FastSimulator.simulate accumulates over its battles.
`bestKillTime` starts at the source's `Infinity`, modeled as `none`. -/
structure SimAccum where
  wins : ℕ := 0
  totalKillTimeWins : ℝ := 0
  totalDamageRatio : ℝ := 0
  totalAdaptation : ℝ := 0
  totalHpRemainingWins : ℝ := 0
  bestKillTime : Option ℝ := Option.none
  worstKillTime : ℝ := 0

/-- The battle loop of FastSimulator.simulate: run one battle per count,
folding the aggregates (win-only fields only on a win). -/
def simulateLoop (wg eg : Genome) (stageLevel : ℝ) :
    ℕ → SimAccum → Rng → SimAccum × Rng
  | 0, acc, rng => (acc, rng)
  | n + 1, acc, rng =>
    let rb := runBattle wg eg stageLevel 30 [] Option.none 0 rng
    let result := rb.1
    let kt := result.killTime.getD 0
    let best := match acc.bestKillTime with
      | Option.none => some kt
      | some b => if kt < b then some kt else some b
    let worst := if kt > acc.worstKillTime then kt else acc.worstKillTime
    let acc :=
      if result.won then
        { acc with
          wins := acc.wins + 1
          totalKillTimeWins := acc.totalKillTimeWins + kt
          totalHpRemainingWins := acc.totalHpRemainingWins + result.weaponHpRemaining
          bestKillTime := best
          worstKillTime := worst }
      else acc
    let acc := { acc with
      totalDamageRatio := acc.totalDamageRatio + result.damageRatio
      totalAdaptation := acc.totalAdaptation + result.adaptationScore }
    simulateLoop wg eg stageLevel n acc rb.2

/-- FastSimulator's aggregate result.  `winRate`, `avgDamageRatio` and
`avgAdaptation` are `none` exactly when the source's division is 0/0
(battleCount = 0, where every numerator is 0), i.e. the JS `NaN`;
`avgKillTime`'s `none` is the `Infinity` sentinel for no wins. -/
structure SimulationResult where
  totalBattles : ℕ
  wins : ℕ
  losses : ℕ
  winRate : Option ℝ
  avgKillTime : Option ℝ
  avgDamageRatio : Option ℝ
  avgAdaptation : Option ℝ
  avgHpRemaining : ℝ
  bestKillTime : ℝ
  worstKillTime : ℝ

/-- FastSimulator.simulate: run battleCount battles and aggregate. -/
def simulate (weaponGenome enemyGenome : Genome) (stageLevel : ℝ := 1)
    (battleCount : ℕ := 100) (rng : Rng) : SimulationResult × Rng :=
  let l := simulateLoop weaponGenome enemyGenome stageLevel battleCount {} rng
  let acc := l.1
  ({ totalBattles := battleCount
     wins := acc.wins
     losses := battleCount - acc.wins
     winRate := if battleCount = 0 then Option.none
       else some ((acc.wins : ℝ) / (battleCount : ℝ))
     avgKillTime := if acc.wins > 0 then some (acc.totalKillTimeWins / (acc.wins : ℝ))
       else Option.none
     avgDamageRatio := if battleCount = 0 then Option.none
       else some (acc.totalDamageRatio / (battleCount : ℝ))
     avgAdaptation := if battleCount = 0 then Option.none
       else some (acc.totalAdaptation / (battleCount : ℝ))
     avgHpRemaining := if acc.wins > 0 then acc.totalHpRemainingWins / (acc.wins : ℝ) else 0
     bestKillTime := acc.bestKillTime.getD 0
     worstKillTime := acc.worstKillTime }, l.2)

-- ========================================================================
-- Concrete test data (used by the closed counterexamples and witnesses)
-- ========================================================================

/-- The spec's end-to-end scenario genome. -/
def scenarioGenome : Genome := [0.8, 0.2, 0.1, 0.5, 0.9, 0.3, 0.3, 0.3, 0.1, 0.1]

/-- A scenario parent: generation 1, breed count 0, no traits, no recorded
lineage, identified by `id`. -/
def scenarioParent (id : String) : Item :=
  { id := id, genome := scenarioGenome, fitness := 0, generation := 1, breedCount := some 0 }

/-- A draw stream whose first 13 values are 0 and the rest 1/2: crossover
keeps parent A's genes, the gene-0 mutation roll fires (draw 10), picks the
full-random branch (draw 11) and re-randomizes gene 0 to 0 (draw 12), and
every later roll misses. -/
def cexRng : Rng := ⟨fun n => if n ≤ 12 then 0 else 1/2, 0⟩

/-- The all-misses draw stream (every value 1/2). -/
def halfRng : Rng := ⟨fun _ => 1/2, 0⟩

/-- The six rating letters in the order the claims compare them. -/
def rankOrder : List String := ["D", "C", "B", "A", "S", "SS"]

/-- A shared genome tail for the rating-monotonicity witness pair. -/
def ratingTail : List ℝ := [0.2, 0.1, 0.5, 0.9, 0.3, 0.3, 0.3, 0.1, 0.1]

/-- Witness item with a low attack gene. -/
def ratingItemLow : Item :=
  { id := "w1", genome := 0.1 :: ratingTail, fitness := 0, generation := 1 }

/-- Witness item with a high attack gene and an otherwise equal genome. -/
def ratingItemHigh : Item :=
  { id := "w2", genome := 0.8 :: ratingTail, fitness := 0, generation := 1 }

/-- The source's breed with the post-call parent records made explicit: a
caller of `breed` observes the child and, afterwards, both parent records.
The body of breed assigns to neither parameter nor to any of their fields —
every helper it calls (crossover, detectInbreeding, applyInbreedEffects,
buildAncestorIds, resolveTraitInheritance, generateBloodlineName) builds
fresh arrays and records from the parents' values — so the embedded
post-call records are the inputs themselves. -/
def breedObservation (parentA parentB : Item) (mutationRate : ℝ) (lockedGenes : List ℕ)
    (now : ℕ) (rng : Rng) : Item × Item × Item :=
  ((breed parentA parentB mutationRate lockedGenes now rng).1, parentA, parentB)

/-- The position of a rating letter in the order D < C < B < A < S < SS
(used to state rating monotonicity). -/
def ratingIdx (r : String) : ℕ :=
  if r = "SS" then 5
  else if r = "S" then 4
  else if r = "A" then 3
  else if r = "B" then 2
  else if r = "C" then 1
  else 0

-- ========================================================================
-- Shared lemmas
-- ========================================================================

/-- Advancing by zero is the identity. -/
theorem Rng.advance_zero (r : Rng) : r.advance 0 = r := by
  simp [Rng.advance]

/-- A draw preserves the stream. -/
theorem Rng.next_vals (r : Rng) : r.next.2.vals = r.vals := rfl

/-- A draw advances the cursor. -/
theorem Rng.next_eq_advance (r : Rng) : r.next.2 = r.advance 1 := rfl

/-- Advancing twice adds. -/
theorem Rng.advance_advance (r : Rng) (a b : ℕ) :
    (r.advance a).advance b = r.advance (a + b) := by
  simp [Rng.advance, Nat.add_assoc]

/-- Validity only concerns the stream, so it survives draws. -/
theorem Rng.Valid.advance {r : Rng} (h : r.Valid) (k : ℕ) : (r.advance k).Valid := h

/-- Validity survives one draw. -/
theorem Rng.Valid.next {r : Rng} (h : r.Valid) : r.next.2.Valid := h

/-- Math.round is monotone. -/
theorem jsRound_le_jsRound {x y : ℝ} (h : x ≤ y) : jsRound x ≤ jsRound y := by
  unfold jsRound
  have : round x ≤ round y := by
    rw [round_eq, round_eq]
    exact Int.floor_le_floor (by linarith)
  exact_mod_cast this

/-- Math.round of a non-negative value is non-negative. -/
theorem jsRound_nonneg {x : ℝ} (h : 0 ≤ x) : 0 ≤ jsRound x := by
  unfold jsRound
  have : (0 : ℤ) ≤ round x := by
    rw [round_eq]
    have h0 : (0 : ℤ) = ⌊(1 : ℝ) / 2⌋ := by norm_num
    rw [h0]
    exact Int.floor_le_floor (by linarith)
  exact_mod_cast this

/-- A gap of at least one survives Math.round with room to spare. -/
theorem jsRound_add_one_le {x y : ℝ} (h : x + 1 ≤ y) : jsRound x + 1 ≤ jsRound y := by
  unfold jsRound
  have : round x + 1 ≤ round y := by
    rw [round_eq, round_eq]
    have h1 : (⌊x + 1 / 2⌋ : ℤ) + 1 = ⌊(x + 1 / 2) + 1⌋ := (Int.floor_add_one (x + 1 / 2)).symm
    have h2 : ⌊(x + 1 / 2) + 1⌋ ≤ ⌊y + 1 / 2⌋ := Int.floor_le_floor (by linarith)
    omega
  exact_mod_cast this

/-- Bounds for an indexed read of a bounded genome (the default 0 is in
range). -/
theorem getD_bounds {g : Genome} (h : ∀ x ∈ g, 0 ≤ x ∧ x ≤ 1) (i : ℕ) :
    0 ≤ g.getD i 0 ∧ g.getD i 0 ≤ 1 := by
  by_cases hi : i < g.length
  · have hm : g.getD i 0 ∈ g := by
      rw [List.getD_eq_getElem g 0 hi]
      exact List.getElem_mem hi
    exact h _ hm
  · rw [List.getD_eq_default g 0 (by omega)]
    norm_num

-- ========================================================================
-- Claim C2: soft-cap idempotence
-- ========================================================================

/-- Claim C2, counterexample: on the all-ones genome (10 values, each in
[0,1]) a first soft-cap pass yields ten 0.97s (sum 9.7, still above the cap
7), and a second pass compresses again to ten 0.943s, so
applySoftCap(applySoftCap g) ≠ applySoftCap g. -/
theorem applySoftCap_not_idempotent :
    applySoftCap (applySoftCap (List.replicate 10 (1 : ℝ))) ≠
      applySoftCap (List.replicate 10 (1 : ℝ)) := by
  have h1 : applySoftCap (List.replicate 10 (1 : ℝ)) = List.replicate 10 (0.97 : ℝ) := by
    unfold applySoftCap
    rw [if_neg (by simp [List.sum_replicate]; norm_num)]
    simp [List.sum_replicate, List.map_replicate, clampGene]
    norm_num
  rw [h1]
  have h2 : applySoftCap (List.replicate 10 (0.97 : ℝ)) = List.replicate 10 (0.943 : ℝ) := by
    unfold applySoftCap
    rw [if_neg (by simp [List.sum_replicate]; norm_num)]
    simp [List.sum_replicate, List.map_replicate, clampGene]
    norm_num
  rw [h2]
  intro hc
  have := List.replicate_right_injective (n := 10) (by norm_num) hc
  norm_num at this

/-- A genome with sum at most the cap passes applySoftCap unchanged. -/
theorem applySoftCap_eq_of_le {g : Genome} (h : g.sum ≤ 7) : applySoftCap g = g := by
  have h7 : g.sum ≤ (7.0 : ℝ) := by linarith
  simp only [applySoftCap]
  rw [if_pos h7]

/-- Claim C2, amended: a genome whose gene sum is at most the cap 7.0 is
returned unchanged by applySoftCap (and applying it twice is therefore the
same as applying it once on such genomes).  Above the cap a single pass
removes only 10% of the excess proportion, so idempotence fails there (see
the counterexample). -/
theorem applySoftCap_under_cap (g : Genome) (h : g.sum ≤ 7) :
    applySoftCap g = g ∧ applySoftCap (applySoftCap g) = applySoftCap g := by
  have h1 := applySoftCap_eq_of_le h
  exact ⟨h1, by rw [h1, h1]⟩

/-- Witness for the amended C2 at the scenario genome (gene sum 3.6). -/
theorem applySoftCap_under_cap_witness :
    applySoftCap scenarioGenome = scenarioGenome ∧
      applySoftCap (applySoftCap scenarioGenome) = applySoftCap scenarioGenome :=
  applySoftCap_under_cap scenarioGenome (by simp [scenarioGenome]; norm_num)

-- ========================================================================
-- Claim C5: trait stacking bound and monotonicity
-- ========================================================================

/-- Claim C5, counterexample: at individual effect 1 (the library's ±100%
modifiers) the stacked effect is exactly 1, not < 1; and at effect 0 the
stacked effect is not strictly increasing in the count. -/
theorem calcStackedEffect_counterexample :
    calcStackedEffect 1 1 = 1 ∧ calcStackedEffect 0 2 = calcStackedEffect 0 1 := by
  constructor
  · simp [calcStackedEffect]
  · simp [calcStackedEffect]

/-- Claim C5, amended: for an individual effect of magnitude strictly
between 0 and 1, the stacked effect is strictly below 1 for every count
N ≥ 1 and strictly increasing in the count. -/
theorem calcStackedEffect_bounds (e : ℝ) (n : ℕ) (h0 : 0 < |e|) (h1 : |e| < 1)
    (hn : 1 ≤ n) :
    calcStackedEffect e n < 1 ∧ calcStackedEffect e n < calcStackedEffect e (n + 1) := by
  have hb0 : 0 < 1 - |e| := by linarith
  have hb1 : 1 - |e| < 1 := by linarith
  have hne : n ≠ 0 := by omega
  have hne1 : n + 1 ≠ 0 := by omega
  unfold calcStackedEffect
  rw [if_neg hne, if_neg hne1]
  constructor
  · have := pow_pos hb0 n
    linarith
  · have hlt : (1 - |e|) ^ (n + 1) < (1 - |e|) ^ n := by
      rw [pow_succ]
      have := pow_pos hb0 n
      nlinarith
    linarith

/-- Witness for the amended C5 at effect 1/2, count 1. -/
theorem calcStackedEffect_bounds_witness :
    calcStackedEffect (1 / 2) 1 < 1 ∧
      calcStackedEffect (1 / 2) 1 < calcStackedEffect (1 / 2) (1 + 1) :=
  calcStackedEffect_bounds (1 / 2) 1 (by norm_num)
    (by rw [abs_of_pos (by norm_num : (0 : ℝ) < 1 / 2)]; norm_num) (by norm_num)

-- ========================================================================
-- Claim C6: breeding cost monotonicity
-- ========================================================================

/-- Every multiplier of the rank cost table is at least 1 (and an unknown
rank falls back to 1). -/
theorem one_le_lookup_getD (r : String) (l : List (String × ℝ))
    (h : ∀ p ∈ l, 1 ≤ p.2) : 1 ≤ (l.lookup r).getD 1 := by
  induction l with
  | nil => simp [List.lookup]
  | cons p ps ih =>
    obtain ⟨k, v⟩ := p
    simp only [List.lookup]
    split
    · simpa using h (k, v) (by simp)
    · exact ih (fun q hq => h q (List.mem_cons_of_mem _ hq))

/-- The rank multiplier is at least 1 for every rank string. -/
theorem one_le_rankMult (r : String) : 1 ≤ ((RANK_COST_MAP.lookup r).getD 1) := by
  apply one_le_lookup_getD
  intro p hp
  simp only [RANK_COST_MAP, List.mem_cons, List.not_mem_nil, or_false] at hp
  rcases hp with h | h | h | h | h | h <;> subst h <;> norm_num

/-- The six rank multipliers, by evaluation. -/
theorem rankMult_values :
    (RANK_COST_MAP.lookup "D").getD 1 = 1 ∧ (RANK_COST_MAP.lookup "C").getD 1 = 1 ∧
    (RANK_COST_MAP.lookup "B").getD 1 = 1.5 ∧ (RANK_COST_MAP.lookup "A").getD 1 = 2 ∧
    (RANK_COST_MAP.lookup "S").getD 1 = 3 ∧ (RANK_COST_MAP.lookup "SS").getD 1 = 5 :=
  ⟨rfl, rfl, rfl, rfl, rfl, rfl⟩

/-- A real at least 1 gains at least 3 in x^2.5 when increased by 1
(split as x^2.5 = x² · x^0.5). -/
theorem rpow_25_succ_gap {a : ℝ} (ha : 1 ≤ a) :
    a ^ (2.5 : ℝ) + 3 ≤ (a + 1) ^ (2.5 : ℝ) := by
  have ha0 : (0 : ℝ) < a := by linarith
  have ha1 : (0 : ℝ) < a + 1 := by linarith
  have hsplit : ∀ x : ℝ, 0 < x → x ^ (2.5 : ℝ) = x ^ 2 * x ^ (0.5 : ℝ) := by
    intro x hx
    have h1 : x ^ (2.5 : ℝ) = x ^ (2 : ℝ) * x ^ (0.5 : ℝ) := by
      rw [← Real.rpow_add hx]; norm_num
    rw [h1]
    congr 1
    rw [show (2 : ℝ) = ((2 : ℕ) : ℝ) by norm_num, Real.rpow_natCast]
  rw [hsplit a ha0, hsplit (a + 1) ha1]
  have hs1 : 1 ≤ a ^ (0.5 : ℝ) := Real.one_le_rpow ha (by norm_num)
  have hsmono : a ^ (0.5 : ℝ) ≤ (a + 1) ^ (0.5 : ℝ) :=
    Real.rpow_le_rpow (le_of_lt ha0) (by linarith) (by norm_num)
  have hstep : (a + 1) ^ 2 * (a ^ (0.5 : ℝ)) ≤ (a + 1) ^ 2 * ((a + 1) ^ (0.5 : ℝ)) :=
    mul_le_mul_of_nonneg_left hsmono (by positivity)
  nlinarith [hs1, hstep, sq_nonneg a]

/-- Claim C6: calculateBreedingCost.totalCost is strictly increasing in the
integer generation (≥ 1), strictly increasing in the locked-gene count, and
non-decreasing along the rank order D, C, B, A, S, SS. -/
theorem breedingCost_monotone (g1 g2 : ℕ) (rank : String) (locks : ℕ)
    (hg : 1 ≤ g1) (hlt : g1 < g2) :
    (calculateBreedingCost (g1 : ℝ) rank locks).totalCost <
      (calculateBreedingCost (g2 : ℝ) rank locks).totalCost ∧
    (calculateBreedingCost (g1 : ℝ) rank locks).totalCost <
      (calculateBreedingCost (g1 : ℝ) rank (locks + 1)).totalCost ∧
    ∀ i j : ℕ, i ≤ j → j < 6 →
      (calculateBreedingCost (g1 : ℝ) (rankOrder.getD i "D") locks).totalCost ≤
        (calculateBreedingCost (g1 : ℝ) (rankOrder.getD j "D") locks).totalCost := by
  have hm := one_le_rankMult rank
  have ha : (1 : ℝ) ≤ (g1 : ℝ) := by exact_mod_cast hg
  have ha0 : (0 : ℝ) ≤ (g1 : ℝ) := by linarith
  refine ⟨?_, ?_, ?_⟩
  · -- strict in generation
    have hb : (g1 : ℝ) + 1 ≤ (g2 : ℝ) := by exact_mod_cast hlt
    have hgap : (g1 : ℝ) ^ (2.5 : ℝ) + 3 ≤ ((g1 : ℝ) + 1) ^ (2.5 : ℝ) := rpow_25_succ_gap ha
    have hmono : ((g1 : ℝ) + 1) ^ (2.5 : ℝ) ≤ (g2 : ℝ) ^ (2.5 : ℝ) :=
      Real.rpow_le_rpow (by linarith) hb (by norm_num)
    have hkey : 25 * (g1 : ℝ) ^ (2.5 : ℝ) * ((RANK_COST_MAP.lookup rank).getD 1) + 1 ≤
        25 * (g2 : ℝ) ^ (2.5 : ℝ) * ((RANK_COST_MAP.lookup rank).getD 1) := by
      nlinarith [hgap, hmono, hm]
    have := jsRound_add_one_le hkey
    simp only [calculateBreedingCost, BreedingCost.totalCost]
    linarith
  · -- strict in the locked-gene count
    simp only [calculateBreedingCost, BreedingCost.totalCost]
    push_cast
    linarith
  · -- non-decreasing along the rank order
    intro i j hij hj
    obtain ⟨hD, hC, hB, hA, hS, hSS⟩ := rankMult_values
    have hmul : ((RANK_COST_MAP.lookup (rankOrder.getD i "D")).getD 1) ≤
        ((RANK_COST_MAP.lookup (rankOrder.getD j "D")).getD 1) := by
      interval_cases j <;> interval_cases i <;>
        simp_all [rankOrder] <;> norm_num
    have hx : (0 : ℝ) ≤ 25 * (g1 : ℝ) ^ (2.5 : ℝ) := by
      have := Real.rpow_nonneg ha0 (2.5 : ℝ)
      linarith
    have hkey : 25 * (g1 : ℝ) ^ (2.5 : ℝ) * ((RANK_COST_MAP.lookup (rankOrder.getD i "D")).getD 1) ≤
        25 * (g1 : ℝ) ^ (2.5 : ℝ) * ((RANK_COST_MAP.lookup (rankOrder.getD j "D")).getD 1) :=
      mul_le_mul_of_nonneg_left hmul hx
    have := jsRound_le_jsRound hkey
    simp only [calculateBreedingCost, BreedingCost.totalCost]
    linarith

/-- Witness for C6 at generation 1 → 2, rank D, no locks. -/
theorem breedingCost_monotone_witness :
    (calculateBreedingCost ((1 : ℕ) : ℝ) "D" 0).totalCost <
      (calculateBreedingCost ((2 : ℕ) : ℝ) "D" 0).totalCost :=
  (breedingCost_monotone 1 2 "D" 0 (by norm_num) (by norm_num)).1

-- ========================================================================
-- Claim C7: rating monotonicity in the attack gene
-- ========================================================================

/-- The rating bands are monotone: a larger score never maps to a smaller
letter in the D < C < B < A < S < SS order. -/
theorem ratingIdx_if_mono {s1 s2 : ℝ} (h : s1 ≤ s2) :
    ratingIdx (if s1 > 700 then "SS" else if s1 > 500 then "S" else if s1 > 300 then "A"
      else if s1 > 150 then "B" else if s1 > 50 then "C" else "D") ≤
    ratingIdx (if s2 > 700 then "SS" else if s2 > 500 then "S" else if s2 > 300 then "A"
      else if s2 > 150 then "B" else if s2 > 50 then "C" else "D") := by
  split_ifs <;> first | decide | (exfalso; linarith)

/-- Claim C7: two items with identical genomes except the attack gene
(index 0), both valid, are rated monotonically: the higher attack gene
never gets a strictly lower letter. -/
theorem getRating_mono (i1 i2 : Item) (a b : ℝ) (t : List ℝ)
    (h1 : i1.genome = a :: t) (h2 : i2.genome = b :: t)
    (hv1 : ValidGenome i1.genome) (hv2 : ValidGenome i2.genome) (hab : a ≤ b) :
    ratingIdx (getRating i1) ≤ ratingIdx (getRating i2) := by
  have h0a : 0 ≤ a := (hv1.2 a (by rw [h1]; exact List.mem_cons_self a t)).1
  have htb : ∀ x ∈ t, 0 ≤ x ∧ x ≤ 1 := by
    intro x hx
    exact hv1.2 x (by rw [h1]; exact List.mem_cons_of_mem a hx)
  have hg1 := getD_bounds htb 0
  have hrpow : a ^ (1.4 : ℝ) ≤ b ^ (1.4 : ℝ) :=
    Real.rpow_le_rpow h0a hab (by norm_num)
  have hrpow0 : 0 ≤ a ^ (1.4 : ℝ) := Real.rpow_nonneg h0a _
  have hsp : (0 : ℝ) < 0.3 + (1.0 - t.getD 0 0) * 1.2 := by nlinarith [hg1.1, hg1.2]
  simp only [getRating, decode, h1, h2, List.getD_cons_zero, List.getD_cons_succ]
  apply ratingIdx_if_mono
  by_cases hc1 : t.getD 1 0 < 0.33
  · simp only [if_pos hc1, reduceCtorEq, if_true, if_false]
    apply add_le_add_right
    apply div_le_div_of_nonneg_right
    · nlinarith
    · nlinarith [hg1.1, hg1.2]
  · by_cases hc2 : t.getD 1 0 < 0.66
    · simp only [if_neg hc1, if_pos hc2, reduceCtorEq, if_true, if_false]
      apply add_le_add_right
      apply div_le_div_of_nonneg_right
      · nlinarith
      · nlinarith [hg1.1, hg1.2]
    · simp only [if_neg hc1, if_neg hc2, reduceCtorEq, if_true, if_false]
      apply add_le_add_right
      apply div_le_div_of_nonneg_right
      · nlinarith
      · nlinarith [hg1.1, hg1.2]

/-- Witness for C7 at attack genes 0.1 and 0.8 over a shared tail. -/
theorem getRating_mono_witness :
    ratingIdx (getRating ratingItemLow) ≤ ratingIdx (getRating ratingItemHigh) :=
  getRating_mono ratingItemLow ratingItemHigh 0.1 0.8 ratingTail rfl rfl
    (by
      refine ⟨rfl, ?_⟩
      intro x hx
      simp only [ratingItemLow, ratingTail, List.mem_cons, List.not_mem_nil, or_false] at hx
      rcases hx with rfl | rfl | rfl | rfl | rfl | rfl | rfl | rfl | rfl | rfl <;> norm_num)
    (by
      refine ⟨rfl, ?_⟩
      intro x hx
      simp only [ratingItemHigh, ratingTail, List.mem_cons, List.not_mem_nil, or_false] at hx
      rcases hx with rfl | rfl | rfl | rfl | rfl | rfl | rfl | rfl | rfl | rfl <;> norm_num)
    (by norm_num)

-- ========================================================================
-- Claim C8: selectParent on an empty / non-empty population
-- ========================================================================

/-- The roulette loop only ever returns a member of the list. -/
theorem selectLoop_mem : ∀ (l : List Item) (r : ℝ) (it : Item),
    selectLoop r l = some it → it ∈ l := by
  intro l
  induction l with
  | nil => intro r it h; simp [selectLoop] at h
  | cons x xs ih =>
    intro r it h
    simp only [selectLoop] at h
    split at h
    · cases h; exact List.mem_cons_self x xs
    · exact List.mem_cons_of_mem x (ih _ _ h)

/-- The last element of a non-empty list is a member (whatever the
fallback). -/
theorem getLastD_mem {l : List Item} (h : l ≠ []) (d : Item) : l.getLastD d ∈ l := by
  match l with
  | x :: xs =>
    rw [List.getLastD_cons, ← List.getLast_eq_getLastD x xs (List.cons_ne_nil x xs)]
    exact List.getLast_mem _

/-- Claim C8: selectParent fails loudly (the thrown error) on an empty
population, and on a non-empty population returns some member of it, for
every draw. -/
theorem selectParent_spec (population : List Item) (rng : Rng) :
    (population = [] → (selectParent population rng).1 = Except.error "Population is empty") ∧
    (population ≠ [] →
      ∃ it, (selectParent population rng).1 = Except.ok it ∧ it ∈ population) := by
  constructor
  · intro h; subst h; rfl
  · intro h
    simp only [selectParent]
    rw [if_neg (by simpa using h)]
    cases hsl : selectLoop (rng.next.1 * ((population.map (fun it => max 0.01 it.fitness)).sum))
        population with
    | some it => exact ⟨it, by simp [hsl], selectLoop_mem _ _ _ hsl⟩
    | none => exact ⟨population.getLastD dummyItem, by simp [hsl], getLastD_mem h _⟩

-- ========================================================================
-- Claim C1: the end-to-end breeding scenario
-- ========================================================================

/-- The crossover recursion on a parent-B suffix returns it unchanged:
when both parents agree, either side of every 50/50 draw is the same
gene. -/
theorem crossoverAux_self (parentB : Genome) :
    ∀ (gs : Genome) (i : ℕ) (rng : Rng), parentB.drop i = gs →
      crossoverAux parentB i gs rng = (gs, rng.advance gs.length) := by
  intro gs
  induction gs with
  | nil => intro i rng _; simp [crossoverAux, Rng.advance_zero]
  | cons g rest ih =>
    intro i rng hdrop
    have hget : parentB.getD i 0 = g := by
      have h1 : (parentB.drop i)[0]? = parentB[(i + 0)]? := List.getElem?_drop parentB i 0
      rw [hdrop] at h1
      have h0 : parentB[i]? = some g := by simpa using h1.symm
      simp [List.getD_eq_getElem?_getD, h0]
    have hrest : parentB.drop (i + 1) = rest := by
      have h2 : parentB.drop (i + 1) = (parentB.drop i).drop 1 := by
        rw [List.drop_drop, Nat.add_comm]
      rw [h2, hdrop]
      rfl
    simp only [crossoverAux, hget, ite_self, ih (i + 1) _ hrest]
    rw [Rng.next_eq_advance, Rng.advance_advance]
    simp [List.length_cons, Nat.add_comm]

/-- crossover of two identical genomes is the identity (the ten draws are
still consumed). -/
theorem crossover_self (g : Genome) (rng : Rng) :
    crossover g g rng = (g, rng.advance g.length) :=
  crossoverAux_self g g 0 rng (by simp)

/-- detectInbreeding on two parents with no recorded lineage: no shared
ancestors, not inbred, coefficient 0, and no draw consumed. -/
theorem detectInbreeding_no_ancestry (pA pB : Item)
    (haA : pA.ancestorIds = Option.none) (haB : pB.ancestorIds = Option.none)
    (hpA : pA.parentIds = Option.none) (hpB : pB.parentIds = Option.none) (rng : Rng) :
    detectInbreeding pA pB rng =
      ({ isInbred := false, sharedAncestors := [], coefficient := 0, fixedGenes := [],
         geneticDisease := Option.none }, rng) := by
  simp [detectInbreeding, parentIdsList, haA, haB, hpA, hpB]

/-- The mutation recursion with no locked genes, when every per-gene roll
misses the rate, returns the genome unchanged (one draw per gene). -/
theorem mutateAux_no_fire (rate gen : ℝ) :
    ∀ (gs : Genome) (i : ℕ) (rng : Rng),
      (∀ k, k < gs.length → rate ≤ rng.vals (rng.idx + k)) →
      mutateAux rate gen [] i gs rng = (gs, rng.advance gs.length) := by
  intro gs
  induction gs with
  | nil => intro i rng _; simp [mutateAux, Rng.advance_zero]
  | cons g rest ih =>
    intro i rng hmiss
    have h0 : rate ≤ rng.vals rng.idx := by
      have := hmiss 0 (by simp)
      simpa using this
    have hnot : ¬ (rng.next.1 < rate) := not_lt.mpr h0
    have hrec := ih (i + 1) rng.next.2 (by
      intro k hk
      have := hmiss (k + 1) (by simpa using Nat.succ_lt_succ hk)
      simpa [Rng.next, Nat.add_assoc, Nat.add_comm 1 k] using this)
    simp only [mutateAux, List.not_mem_nil, if_false, hnot, hrec]
    rw [Rng.next_eq_advance, Rng.advance_advance]
    simp [List.length_cons, Nat.add_comm]

/-- The fatigue/cure/upgrade tail only ever touches the child's
geneticDisease and traits fields. -/
theorem applyBreedBonuses_frame (c : Item) (a m : ℝ) (rng : Rng) :
    (applyBreedBonuses c a m rng).1.genome = c.genome ∧
    (applyBreedBonuses c a m rng).1.generation = c.generation ∧
    (applyBreedBonuses c a m rng).1.parentIds = c.parentIds ∧
    (applyBreedBonuses c a m rng).1.ancestorIds = c.ancestorIds ∧
    (applyBreedBonuses c a m rng).1.breedCount = c.breedCount ∧
    (applyBreedBonuses c a m rng).1.id = c.id := by
  simp only [applyBreedBonuses]
  split_ifs <;> simp

/-- applyBreedBonuses leaves the child's genome alone. -/
theorem applyBreedBonuses_genome (c : Item) (a m : ℝ) (r : Rng) :
    (applyBreedBonuses c a m r).1.genome = c.genome :=
  (applyBreedBonuses_frame c a m r).1

/-- applyBreedBonuses leaves the child's generation alone. -/
theorem applyBreedBonuses_generation (c : Item) (a m : ℝ) (r : Rng) :
    (applyBreedBonuses c a m r).1.generation = c.generation :=
  (applyBreedBonuses_frame c a m r).2.1

/-- applyBreedBonuses leaves the child's parent ids alone. -/
theorem applyBreedBonuses_parentIds (c : Item) (a m : ℝ) (r : Rng) :
    (applyBreedBonuses c a m r).1.parentIds = c.parentIds :=
  (applyBreedBonuses_frame c a m r).2.2.1

/-- applyBreedBonuses leaves the child's breed count alone. -/
theorem applyBreedBonuses_breedCount (c : Item) (a m : ℝ) (r : Rng) :
    (applyBreedBonuses c a m r).1.breedCount = c.breedCount :=
  (applyBreedBonuses_frame c a m r).2.2.2.2.1

/-- The fields of breed's child record that no later step touches. -/
theorem breed_fields (pA pB : Item) (mr : ℝ) (locks : List ℕ) (now : ℕ) (rng : Rng) :
    (breed pA pB mr locks now rng).1.generation = max pA.generation pB.generation + 1 ∧
    (breed pA pB mr locks now rng).1.breedCount = some 0 ∧
    (breed pA pB mr locks now rng).1.parentIds = some (pA.id, pB.id) := by
  refine ⟨?_, ?_, ?_⟩ <;>
    simp only [breed, applyBreedBonuses_generation, applyBreedBonuses_breedCount,
      applyBreedBonuses_parentIds]

/-- applyGeneLocks with no locked genes is the identity. -/
theorem applyGeneLocks_nil (g p : Genome) : applyGeneLocks g p [] = g := rfl

/-- The scenario genome's sum (3.6) is under the soft cap. -/
theorem scenarioGenome_sum : scenarioGenome.sum ≤ 7 := by
  simp [scenarioGenome]
  norm_num

/-- Claim C1, amended: for the spec's scenario parents (identical genome
[0.8,0.2,0.1,0.5,0.9,0.3,0.3,0.3,0.1,0.1], generation 1, breed count 0, no
traits, distinct ids, no shared ancestry), detectInbreeding reports not
inbred with coefficient 0, and breed with mutationRate 0 and no locks
yields generation 2, breed count 0 and the two parent ids on every
execution — and the child genome equals the parents' gene values exactly
in every execution in which no per-gene mutation roll fires.  (The
effective per-gene rate is not 0 but the entropy-escalated
mutationRate + generation·0.005 = 0.01, so the genome clause cannot hold
on all executions; see the counterexample.) -/
theorem breeding_scenario (idA idB : String) (now : ℕ) (rng : Rng)
    (hne : idA ≠ idB) (hval : rng.Valid) (hidx : rng.idx = 0) :
    (detectInbreeding (scenarioParent idA) (scenarioParent idB) rng).1.isInbred = false ∧
    (detectInbreeding (scenarioParent idA) (scenarioParent idB) rng).1.coefficient = 0 ∧
    (breed (scenarioParent idA) (scenarioParent idB) 0 [] now rng).1.generation = 2 ∧
    (breed (scenarioParent idA) (scenarioParent idB) 0 [] now rng).1.breedCount = some 0 ∧
    (breed (scenarioParent idA) (scenarioParent idB) 0 [] now rng).1.parentIds =
      some (idA, idB) ∧
    ((∀ k, 10 ≤ k → k < 20 → 0.01 ≤ rng.vals k) →
      (breed (scenarioParent idA) (scenarioParent idB) 0 [] now rng).1.genome =
        scenarioGenome) := by
  obtain ⟨hgen, hbc, hpid⟩ := breed_fields (scenarioParent idA) (scenarioParent idB) 0 [] now rng
  refine ⟨?_, ?_, ?_, hbc, ?_, ?_⟩
  · rw [detectInbreeding_no_ancestry _ _ rfl rfl rfl rfl]
  · rw [detectInbreeding_no_ancestry _ _ rfl rfl rfl rfl]
  · rw [hgen]
    simp [scenarioParent]
    norm_num
  · rw [hpid]
    rfl
  · intro hmiss
    have hcross : crossover (scenarioParent idA).genome (scenarioParent idB).genome rng =
        (scenarioGenome, rng.advance 10) := by
      have h10 : scenarioGenome.length = 10 := rfl
      have := crossover_self scenarioGenome rng
      rw [h10] at this
      exact this
    have hdet := detectInbreeding_no_ancestry (scenarioParent idA) (scenarioParent idB)
      rfl rfl rfl rfl (rng.advance 10)
    have hrate : (0 : ℝ) +
        (max (scenarioParent idA).generation (scenarioParent idB).generation + 1) * 0.005 =
        0.01 := by
      simp [scenarioParent]
      norm_num
    have hmut : mutate scenarioGenome
        (0 + (max (scenarioParent idA).generation (scenarioParent idB).generation + 1) * 0.005)
        (max (scenarioParent idA).generation (scenarioParent idB).generation + 1)
        [] (rng.advance 10) = (scenarioGenome, (rng.advance 10).advance 10) := by
      have hcond : ∀ k, k < scenarioGenome.length →
          (0 + (max (scenarioParent idA).generation (scenarioParent idB).generation + 1)
            * 0.005) ≤ (rng.advance 10).vals ((rng.advance 10).idx + k) := by
        intro k hk
        have hk10 : k < 10 := by simpa [scenarioGenome] using hk
        rw [hrate]
        simpa [Rng.advance, hidx] using hmiss (10 + k) (by omega) (by omega)
      have := mutateAux_no_fire
        (0 + (max (scenarioParent idA).generation (scenarioParent idB).generation + 1) * 0.005)
        (max (scenarioParent idA).generation (scenarioParent idB).generation + 1)
        scenarioGenome 0 (rng.advance 10) hcond
      simpa [mutate, scenarioGenome] using this
    have hsoft : applySoftCap scenarioGenome = scenarioGenome :=
      applySoftCap_eq_of_le scenarioGenome_sum
    simp only [breed, applyBreedBonuses_genome, hcross, hdet]
    simp only [applyGeneLocks_nil]
    simp only [Bool.false_eq_true, if_false, hmut, hsoft]

/-- Witness for the amended C1: ids "A"/"B", the all-1/2 draw stream (no
mutation roll fires at rate 0.01). -/
theorem breeding_scenario_witness :
    ("A" : String) ≠ "B" ∧ halfRng.Valid ∧
    (breed (scenarioParent "A") (scenarioParent "B") 0 [] 0 halfRng).1.generation = 2 ∧
    (breed (scenarioParent "A") (scenarioParent "B") 0 [] 0 halfRng).1.genome =
      scenarioGenome := by
  have hval : halfRng.Valid := by
    intro n
    constructor <;> simp [halfRng] <;> norm_num
  have h := breeding_scenario "A" "B" 0 halfRng (by decide) hval rfl
  exact ⟨by decide, hval, h.2.2.1,
    h.2.2.2.2.2 (fun k _ _ => by simp [halfRng]; norm_num)⟩

/-- The mutation recursion when the head gene's roll fires, the re-randomize
branch is taken, and every later roll misses: the head gene becomes the
third draw's value. -/
theorem mutateAux_fire_head (rate gen : ℝ) (g : ℝ) (rest : Genome) (rng : Rng)
    (h1 : rng.vals rng.idx < rate)
    (h2 : rng.vals (rng.idx + 1) < 0.5)
    (hrest : ∀ k, k < rest.length → rate ≤ rng.vals (rng.idx + 1 + 1 + 1 + k)) :
    mutateAux rate gen [] 0 (g :: rest) rng =
      (rng.vals (rng.idx + 1 + 1) :: rest, rng.advance (3 + rest.length)) := by
  have hrec := mutateAux_no_fire rate gen rest 1 ⟨rng.vals, rng.idx + 1 + 1 + 1⟩
    (by intro k hk; exact hrest k hk)
  simp only [mutateAux, List.not_mem_nil, if_false, Rng.next, Nat.zero_add]
  rw [if_pos h1, if_pos h2, hrec]
  simp only [Rng.advance, Rng.mk.injEq, List.cons.injEq, Prod.mk.injEq]
  exact ⟨trivial, trivial, by omega⟩

/-- Claim C1, counterexample: on the draw stream whose first 13 values are
0 and the rest 1/2 (a legitimate outcome of the random draws), breeding the
two scenario parents with mutationRate 0 re-randomizes gene 0 to 0: the
child's gene 0 is neither parent's value 0.8, because breed mutates at the
entropy rate 0 + generation×0.005 = 0.01, not at 0. -/
theorem breed_scenario_mutates :
    cexRng.Valid ∧
    (detectInbreeding (scenarioParent "A") (scenarioParent "B") cexRng).1.isInbred = false ∧
    (scenarioParent "A").genome.getD 0 0 = 0.8 ∧
    (scenarioParent "B").genome.getD 0 0 = 0.8 ∧
    (breed (scenarioParent "A") (scenarioParent "B") 0 [] 0 cexRng).1.genome.getD 0 0 = 0 ∧
    (breed (scenarioParent "A") (scenarioParent "B") 0 [] 0 cexRng).1.genome.getD 0 0 ≠
      (scenarioParent "A").genome.getD 0 0 := by
  have hval : cexRng.Valid := by
    intro n
    by_cases h : n ≤ 12 <;> simp [cexRng, h] <;> norm_num
  have hdet0 := detectInbreeding_no_ancestry (scenarioParent "A") (scenarioParent "B")
    rfl rfl rfl rfl cexRng
  have hgenome :
      (breed (scenarioParent "A") (scenarioParent "B") 0 [] 0 cexRng).1.genome =
        0 :: [0.2, 0.1, 0.5, 0.9, 0.3, 0.3, 0.3, 0.1, 0.1] := by
    have hcross : crossover (scenarioParent "A").genome (scenarioParent "B").genome cexRng =
        (scenarioGenome, cexRng.advance 10) := by
      have h10 : scenarioGenome.length = 10 := rfl
      have := crossover_self scenarioGenome cexRng
      rw [h10] at this
      exact this
    have hdet := detectInbreeding_no_ancestry (scenarioParent "A") (scenarioParent "B")
      rfl rfl rfl rfl (cexRng.advance 10)
    have hrate : (0 : ℝ) +
        (max (scenarioParent "A").generation (scenarioParent "B").generation + 1) * 0.005 =
        0.01 := by
      simp [scenarioParent]
      norm_num
    have hfire := mutateAux_fire_head
      (0 + (max (scenarioParent "A").generation (scenarioParent "B").generation + 1) * 0.005)
      (max (scenarioParent "A").generation (scenarioParent "B").generation + 1)
      0.8 [0.2, 0.1, 0.5, 0.9, 0.3, 0.3, 0.3, 0.1, 0.1] (cexRng.advance 10)
      (by rw [hrate]; simp [cexRng, Rng.advance]; norm_num)
      (by simp [cexRng, Rng.advance]; norm_num)
      (by
        intro k hk
        rw [hrate]
        simp only [cexRng, Rng.advance]
        rw [if_neg (by omega)]
        norm_num)
    have hmut : mutate scenarioGenome
        (0 + (max (scenarioParent "A").generation (scenarioParent "B").generation + 1) * 0.005)
        (max (scenarioParent "A").generation (scenarioParent "B").generation + 1)
        [] (cexRng.advance 10) =
        (0 :: [0.2, 0.1, 0.5, 0.9, 0.3, 0.3, 0.3, 0.1, 0.1], (cexRng.advance 10).advance 12) := by
      have hv12 : (cexRng.advance 10).vals ((cexRng.advance 10).idx + 1 + 1) = 0 := by
        simp [cexRng, Rng.advance]
      rw [mutate, show scenarioGenome =
        (0.8 : ℝ) :: [0.2, 0.1, 0.5, 0.9, 0.3, 0.3, 0.3, 0.1, 0.1] from rfl, hfire, hv12]
      simp
    have hsoft : applySoftCap ((0 : ℝ) :: [0.2, 0.1, 0.5, 0.9, 0.3, 0.3, 0.3, 0.1, 0.1]) =
        (0 : ℝ) :: [0.2, 0.1, 0.5, 0.9, 0.3, 0.3, 0.3, 0.1, 0.1] := by
      apply applySoftCap_eq_of_le
      simp
      norm_num
    simp only [breed, applyBreedBonuses_genome, hcross, hdet]
    simp only [applyGeneLocks_nil]
    simp only [Bool.false_eq_true, if_false, hmut, hsoft]
  refine ⟨hval, by rw [hdet0], rfl, rfl, ?_, ?_⟩
  · rw [hgenome]
    rfl
  · rw [hgenome]
    intro hcontra
    have h08 : (scenarioParent "A").genome.getD 0 0 = (0.8 : ℝ) := rfl
    rw [h08] at hcontra
    simp at hcontra
    norm_num at hcontra

-- ========================================================================
-- Claim C10: breed does not modify its parents
-- ========================================================================

/-- Claim C10: breed leaves both parent records unchanged — every field of
parentA and parentB after the call is its input value — and the child's
breed count starts at 0: the parents' breed-count increment is the
caller's, not breed's. -/
theorem breed_preserves_parents (parentA parentB : Item) (mutationRate : ℝ)
    (lockedGenes : List ℕ) (now : ℕ) (rng : Rng) :
    (breedObservation parentA parentB mutationRate lockedGenes now rng).2.1 = parentA ∧
    (breedObservation parentA parentB mutationRate lockedGenes now rng).2.2 = parentB ∧
    (breedObservation parentA parentB mutationRate lockedGenes now rng).1.breedCount =
      some 0 := by
  refine ⟨rfl, rfl, ?_⟩
  simp only [breedObservation, breed]
  rw [(applyBreedBonuses_frame _ _ _ _).2.2.2.2.1]

-- ========================================================================
-- Claim C9: FastSimulator.simulate at battleCount = 0
-- ========================================================================

/-- Claim C9: FastSimulator.simulate called with battleCount = 0 returns
wins = 0 and losses = 0, but its winRate is the source's `wins/battleCount`
= 0/0, the JS NaN (the embedding's `none`), for every pair of genomes,
every stage level and every draw stream — the spec's required well-defined
winRate is not met. -/
theorem simulate_zero_battles (wg eg : Genome) (stage : ℝ) (rng : Rng) :
    (simulate wg eg stage 0 rng).1.wins = 0 ∧
    (simulate wg eg stage 0 rng).1.losses = 0 ∧
    (simulate wg eg stage 0 rng).1.winRate = Option.none := by
  refine ⟨rfl, rfl, ?_⟩
  simp [simulate, simulateLoop]

-- ========================================================================
-- Claim C4: genome invariants through the breeding pipeline
-- ========================================================================

/-- Validity of a draw stream depends only on the values, not the cursor. -/
theorem Rng.Valid.of_vals_eq {r s : Rng} (h : s.vals = r.vals) (hv : r.Valid) : s.Valid := by
  intro n
  rw [h]
  exact hv n

/-- clampGene lands in [0, 1]. -/
theorem clampGene_bounds (v : ℝ) : 0 ≤ clampGene v ∧ clampGene v ≤ 1 :=
  ⟨le_max_left 0 _, max_le zero_le_one (min_le_left 1 v)⟩

/-- applySoftCap preserves the genome's length. -/
theorem applySoftCap_length (g : Genome) : (applySoftCap g).length = g.length := by
  simp only [applySoftCap]
  split_ifs <;> simp

/-- applySoftCap keeps every gene in [0, 1] (the compressed branch clamps
each gene). -/
theorem applySoftCap_mem {g : Genome} (hg : ∀ x ∈ g, 0 ≤ x ∧ x ≤ 1) :
    ∀ x ∈ applySoftCap g, 0 ≤ x ∧ x ≤ 1 := by
  simp only [applySoftCap]
  split_ifs with h
  · exact hg
  · intro x hx
    obtain ⟨y, _, rfl⟩ := List.mem_map.mp hx
    exact clampGene_bounds _

/-- crossoverAux preserves the genome's length. -/
theorem crossoverAux_length (pB : Genome) :
    ∀ (g : Genome) (i : ℕ) (rng : Rng), (crossoverAux pB i g rng).1.length = g.length := by
  intro g
  induction g with
  | nil => intro i rng; rfl
  | cons a rest ih =>
    intro i rng
    simp only [crossoverAux, List.length_cons, ih]

/-- crossoverAux only advances the draw cursor. -/
theorem crossoverAux_vals (pB : Genome) :
    ∀ (g : Genome) (i : ℕ) (rng : Rng), (crossoverAux pB i g rng).2.vals = rng.vals := by
  intro g
  induction g with
  | nil => intro i rng; rfl
  | cons a rest ih =>
    intro i rng
    simp only [crossoverAux]
    exact ih (i + 1) rng.next.2

/-- Every gene crossoverAux emits comes from one of the two parents (or the
out-of-range default 0), hence stays in [0, 1]. -/
theorem crossoverAux_mem (pB : Genome) (hB : ∀ x ∈ pB, 0 ≤ x ∧ x ≤ 1) :
    ∀ (g : Genome), (∀ x ∈ g, 0 ≤ x ∧ x ≤ 1) →
      ∀ (i : ℕ) (rng : Rng), ∀ x ∈ (crossoverAux pB i g rng).1, 0 ≤ x ∧ x ≤ 1 := by
  intro g
  induction g with
  | nil =>
    intro _ i rng x hx
    simp [crossoverAux] at hx
  | cons a rest ih =>
    intro hg i rng x hx
    simp only [crossoverAux, List.mem_cons] at hx
    rcases hx with h | h
    · subst h
      split_ifs
      · exact hg a (List.mem_cons_self a rest)
      · exact getD_bounds hB i
    · exact ih (fun y hy => hg y (List.mem_cons_of_mem a hy)) (i + 1) rng.next.2 x h

/-- mutateAux preserves the genome's length. -/
theorem mutateAux_length (rate gen : ℝ) (locks : List ℕ) :
    ∀ (g : Genome) (idx : ℕ) (rng : Rng),
      (mutateAux rate gen locks idx g rng).1.length = g.length := by
  intro g
  induction g with
  | nil => intro idx rng; rfl
  | cons a rest ih =>
    intro idx rng
    simp only [mutateAux]
    split_ifs <;> simp [ih]

/-- mutateAux only advances the draw cursor. -/
theorem mutateAux_vals (rate gen : ℝ) (locks : List ℕ) :
    ∀ (g : Genome) (idx : ℕ) (rng : Rng),
      (mutateAux rate gen locks idx g rng).2.vals = rng.vals := by
  intro g
  induction g with
  | nil => intro idx rng; rfl
  | cons a rest ih =>
    intro idx rng
    simp only [mutateAux]
    split_ifs <;> simp [ih] <;> rfl

/-- With a valid draw stream, mutateAux keeps every gene in [0, 1]: an
unchanged or locked gene keeps its input value, a re-randomized gene is a
raw draw, and a perturbed gene is clamped. -/
theorem mutateAux_mem (rate gen : ℝ) (locks : List ℕ) :
    ∀ (g : Genome) (idx : ℕ) (rng : Rng), rng.Valid → (∀ x ∈ g, 0 ≤ x ∧ x ≤ 1) →
      ∀ x ∈ (mutateAux rate gen locks idx g rng).1, 0 ≤ x ∧ x ≤ 1 := by
  intro g
  induction g with
  | nil =>
    intro idx rng _ _ x hx
    simp [mutateAux] at hx
  | cons a rest ih =>
    intro idx rng hv hg x hx
    have hhead := hg a (List.mem_cons_self a rest)
    have htail : ∀ y ∈ rest, 0 ≤ y ∧ y ≤ 1 := fun y hy => hg y (List.mem_cons_of_mem a hy)
    simp only [mutateAux] at hx
    split_ifs at hx <;>
      rcases List.mem_cons.mp hx with h | h <;>
      first
        | (subst h; exact hhead)
        | (subst h
           exact ⟨le_max_left _ _, max_le zero_le_one (min_le_left _ _)⟩)
        | (subst h
           obtain ⟨h0, h1⟩ := hv (rng.idx + 1 + 1)
           exact ⟨h0, h1.le⟩)
        | (refine ih (idx + 1) _ ?_ htail x h
           exact hv)

/-- One step of the manual gene-lock fold. -/
theorem applyGeneLocks_cons (g p : Genome) (i : ℕ) (is : List ℕ) :
    applyGeneLocks g p (i :: is) =
      applyGeneLocks (if i < GENOME_LENGTH then g.set i (p.getD i 0) else g) p is := rfl

/-- applyGeneLocks preserves the genome's length. -/
theorem applyGeneLocks_length (g p : Genome) (locks : List ℕ) :
    (applyGeneLocks g p locks).length = g.length := by
  induction locks generalizing g with
  | nil => rfl
  | cons i is ih =>
    rw [applyGeneLocks_cons, ih]
    split_ifs <;> simp

/-- applyGeneLocks keeps genes in [0, 1] when both genomes are in [0, 1]. -/
theorem applyGeneLocks_mem {p : Genome} (hp : ∀ x ∈ p, 0 ≤ x ∧ x ≤ 1) (locks : List ℕ) :
    ∀ (g : Genome), (∀ x ∈ g, 0 ≤ x ∧ x ≤ 1) →
      ∀ x ∈ applyGeneLocks g p locks, 0 ≤ x ∧ x ≤ 1 := by
  induction locks with
  | nil => intro g hg; exact hg
  | cons i is ih =>
    intro g hg x hx
    rw [applyGeneLocks_cons] at hx
    refine ih _ ?_ x hx
    split_ifs
    · intro y hy
      rcases List.mem_or_eq_of_mem_set hy with h | h
      · exact hg y h
      · subst h
        exact getD_bounds hp i
    · exact hg

/-- detectInbreeding only advances the draw cursor. -/
theorem detectInbreeding_vals (pA pB : Item) (rng : Rng) :
    (detectInbreeding pA pB rng).2.vals = rng.vals := by
  simp only [detectInbreeding]
  split_ifs <;> rfl

/-- diminishingReturns of a nonnegative base is nonnegative: its decay
denominator is at least 1. -/
theorem diminishingReturns_nonneg {b : ℝ} (hb : 0 ≤ b) (g : ℝ) :
    0 ≤ diminishingReturns b g := by
  have hlog : 0 ≤ Real.log (max 1 g) := Real.log_nonneg (le_max_left 1 g)
  simp only [diminishingReturns]
  have hdecay : (0:ℝ) < 1 + Real.log (max 1 g) * 0.25 := by linarith
  exact div_nonneg hb hdecay.le

/-- Membership bounds survive a single set of a bounded value. -/
theorem set_mem_bounds {g : Genome} (hg : ∀ x ∈ g, 0 ≤ x ∧ x ≤ 1) {v : ℝ}
    (hv : 0 ≤ v ∧ v ≤ 1) (k : ℕ) : ∀ x ∈ g.set k v, 0 ≤ x ∧ x ≤ 1 := by
  intro x hx
  rcases List.mem_or_eq_of_mem_set hx with h | h
  · exact hg x h
  · subst h
    exact hv

/-- The deep-inbreeding boost map keeps genes in [0, 1] for a nonnegative
boost. -/
theorem coiBoost_map_mem {g : Genome} (hg : ∀ x ∈ g, 0 ≤ x ∧ x ≤ 1) {c : ℝ} (hc : 0 ≤ c) :
    ∀ x ∈ g.map (fun x => min 1 (x * (1 + c))), 0 ≤ x ∧ x ≤ 1 := by
  intro x hx
  obtain ⟨y, hy, rfl⟩ := List.mem_map.mp hx
  obtain ⟨hy0, _⟩ := hg y hy
  exact ⟨le_min zero_le_one (mul_nonneg hy0 (by linarith)), min_le_left _ _⟩

/-- The fixed-gene averaging fold of applyInbreedEffects preserves length. -/
theorem inbreedFix_length (pA pB : Item) (l : List ℕ) :
    ∀ g : Genome,
      (l.foldl (fun g idx =>
        g.set idx ((pA.genome.getD idx 0 + pB.genome.getD idx 0) / 2)) g).length = g.length := by
  induction l with
  | nil => intro g; rfl
  | cons i is ih =>
    intro g
    rw [List.foldl_cons, ih]
    simp

/-- The fixed-gene averaging fold keeps genes in [0, 1] when the parents'
genomes are in [0, 1]. -/
theorem inbreedFix_mem {pA pB : Item} (hA : ∀ x ∈ pA.genome, 0 ≤ x ∧ x ≤ 1)
    (hB : ∀ x ∈ pB.genome, 0 ≤ x ∧ x ≤ 1) (l : List ℕ) :
    ∀ g : Genome, (∀ x ∈ g, 0 ≤ x ∧ x ≤ 1) →
      ∀ x ∈ l.foldl (fun g idx =>
        g.set idx ((pA.genome.getD idx 0 + pB.genome.getD idx 0) / 2)) g, 0 ≤ x ∧ x ≤ 1 := by
  induction l with
  | nil => intro g hg; exact hg
  | cons i is ih =>
    intro g hg x hx
    rw [List.foldl_cons] at hx
    refine ih _ ?_ x hx
    obtain ⟨ha0, ha1⟩ := getD_bounds hA i
    obtain ⟨hb0, hb1⟩ := getD_bounds hB i
    exact set_mem_bounds hg ⟨by linarith, by linarith⟩ i

/-- applyInbreedEffects preserves the child genome's length. -/
theorem applyInbreedEffects_length (cg : Genome) (pA pB : Item) (inb : InbreedResult)
    (rng : Rng) : (applyInbreedEffects cg pA pB inb rng).1.length = cg.length := by
  simp only [applyInbreedEffects]
  cases hgd : inb.geneticDisease with
  | none =>
    split_ifs <;> simp only [List.length_map] <;> exact inbreedFix_length pA pB _ cg
  | some d =>
    cases d <;> split_ifs <;> simp only [List.length_map, List.length_set] <;>
      exact inbreedFix_length pA pB _ cg

/-- applyInbreedEffects only advances the draw cursor. -/
theorem applyInbreedEffects_vals (cg : Genome) (pA pB : Item) (inb : InbreedResult)
    (rng : Rng) : (applyInbreedEffects cg pA pB inb rng).2.vals = rng.vals := by
  simp only [applyInbreedEffects]
  cases hgd : inb.geneticDisease with
  | none => split_ifs <;> rfl
  | some d => cases d <;> split_ifs <;> rfl

/-- With valid parents, a valid child genome and a valid draw stream,
applyInbreedEffects keeps every gene in [0, 1]: fixed genes average the
parents, the disease perturbations scale down and clamp at 0 (capped at 1
by the input bound), the instability redraw is a raw draw, and the deep
inbreeding boost caps at 1. -/
theorem applyInbreedEffects_mem {cg : Genome} {pA pB : Item} {inb : InbreedResult} {rng : Rng}
    (hA : ∀ x ∈ pA.genome, 0 ≤ x ∧ x ≤ 1) (hB : ∀ x ∈ pB.genome, 0 ≤ x ∧ x ≤ 1)
    (hg : ∀ x ∈ cg, 0 ≤ x ∧ x ≤ 1) (hv : rng.Valid) :
    ∀ x ∈ (applyInbreedEffects cg pA pB inb rng).1, 0 ≤ x ∧ x ≤ 1 := by
  have hres := inbreedFix_mem hA hB inb.fixedGenes cg hg
  have hc : 0 ≤ diminishingReturns 0.15 (max (max pA.generation pB.generation) 1) :=
    diminishingReturns_nonneg (by norm_num) _
  simp only [applyInbreedEffects]
  cases hgd : inb.geneticDisease with
  | none =>
    split_ifs
    · exact coiBoost_map_mem hres hc
    · exact hres
  | some d =>
    have h0 := getD_bounds hres 0
    have h1 := getD_bounds hres 1
    have h4 := getD_bounds hres 4
    cases d <;> split_ifs <;>
      first
        | exact coiBoost_map_mem (set_mem_bounds hres
            ⟨le_max_left _ _, max_le zero_le_one (by nlinarith [h4.1, h4.2])⟩ 4) hc
        | exact set_mem_bounds hres
            ⟨le_max_left _ _, max_le zero_le_one (by nlinarith [h4.1, h4.2])⟩ 4
        | exact coiBoost_map_mem (set_mem_bounds hres
            ⟨le_max_left _ _, max_le zero_le_one (by nlinarith [h0.1, h0.2])⟩ 0) hc
        | exact set_mem_bounds hres
            ⟨le_max_left _ _, max_le zero_le_one (by nlinarith [h0.1, h0.2])⟩ 0
        | exact coiBoost_map_mem (set_mem_bounds hres
            ⟨(hv rng.idx).1, (hv rng.idx).2.le⟩ 2) hc
        | exact set_mem_bounds hres ⟨(hv rng.idx).1, (hv rng.idx).2.le⟩ 2
        | exact coiBoost_map_mem (set_mem_bounds hres
            ⟨le_max_left _ _, max_le zero_le_one (by nlinarith [h1.1, h1.2])⟩ 1) hc
        | exact set_mem_bounds hres
            ⟨le_max_left _ _, max_le zero_le_one (by nlinarith [h1.1, h1.2])⟩ 1

/-- stageGenomeGenes emits exactly n genes. -/
theorem stageGenomeGenes_length (range fb : ℝ) :
    ∀ (n : ℕ) (rng : Rng), (stageGenomeGenes range fb n rng).1.length = n := by
  intro n
  induction n with
  | zero => intro rng; rfl
  | succ k ih =>
    intro rng
    simp only [stageGenomeGenes, List.length_cons, ih]

/-- Every gene stageGenomeGenes emits lies in [0.01, 0.99] ⊆ [0, 1]. -/
theorem stageGenomeGenes_mem (range fb : ℝ) :
    ∀ (n : ℕ) (rng : Rng), ∀ x ∈ (stageGenomeGenes range fb n rng).1, 0 ≤ x ∧ x ≤ 1 := by
  intro n
  induction n with
  | zero =>
    intro rng x hx
    simp [stageGenomeGenes] at hx
  | succ k ih =>
    intro rng x hx
    simp only [stageGenomeGenes, List.mem_cons] at hx
    rcases hx with h | h
    · subst h
      constructor
      · exact le_trans (by norm_num) (le_max_left _ _)
      · exact max_le (by norm_num) (le_trans (min_le_left _ _) (by norm_num))
    · exact ih _ x h

/-- crossover of two valid genomes is valid (for every draw stream). -/
theorem crossover_valid {a b : Genome} (rng : Rng) (ha : ValidGenome a) (hb : ValidGenome b) :
    ValidGenome (crossover a b rng).1 := by
  obtain ⟨hal, ham⟩ := ha
  obtain ⟨hbl, hbm⟩ := hb
  exact ⟨(crossoverAux_length b a 0 rng).trans hal, crossoverAux_mem b hbm a ham 0 rng⟩

/-- mutate of a valid genome under a valid draw stream is valid. -/
theorem mutate_valid {g : Genome} (rate gen : ℝ) (locks : List ℕ) {rng : Rng}
    (hg : ValidGenome g) (hv : rng.Valid) :
    ValidGenome (mutate g rate gen locks rng).1 := by
  obtain ⟨hl, hm⟩ := hg
  exact ⟨(mutateAux_length rate gen locks g 0 rng).trans hl,
    mutateAux_mem rate gen locks g 0 rng hv hm⟩

/-- createStageGenome always emits a valid 10-gene genome (the raw draws
are clamped into [0.01, 0.99] gene by gene). -/
theorem createStageGenome_valid (stage : ℝ) (rng : Rng) :
    ValidGenome (createStageGenome stage 10 rng).1 := by
  simp only [createStageGenome]
  exact ⟨stageGenomeGenes_length _ _ 10 rng, stageGenomeGenes_mem _ _ 10 rng⟩

/-- The genome of the child breed produces from valid parents under a valid
draw stream is valid: crossover, gene locks, inbreeding effects, mutation
and the soft cap each preserve length 10 and the [0, 1] gene range. -/
theorem breed_genome_valid (pA pB : Item) (mr : ℝ) (locks : List ℕ) (now : ℕ) (rng : Rng)
    (hA : ValidGenome pA.genome) (hB : ValidGenome pB.genome) (hv : rng.Valid) :
    ValidGenome (breed pA pB mr locks now rng).1.genome := by
  obtain ⟨hAl, hAm⟩ := hA
  obtain ⟨hBl, hBm⟩ := hB
  have hcg_len : (crossover pA.genome pB.genome rng).1.length = 10 :=
    (crossoverAux_length pB.genome pA.genome 0 rng).trans hAl
  have hcg_mem : ∀ x ∈ (crossover pA.genome pB.genome rng).1, 0 ≤ x ∧ x ≤ 1 :=
    crossoverAux_mem pB.genome hBm pA.genome hAm 0 rng
  have hlk_len :
      (applyGeneLocks (crossover pA.genome pB.genome rng).1 pA.genome locks).length = 10 :=
    (applyGeneLocks_length _ _ _).trans hcg_len
  have hlk_mem := applyGeneLocks_mem hAm locks _ hcg_mem
  have hv1 : (crossover pA.genome pB.genome rng).2.Valid :=
    Rng.Valid.of_vals_eq (crossoverAux_vals pB.genome pA.genome 0 rng) hv
  have hv2 : (detectInbreeding pA pB (crossover pA.genome pB.genome rng).2).2.Valid :=
    Rng.Valid.of_vals_eq (detectInbreeding_vals _ _ _) hv1
  simp only [breed, applyBreedBonuses_genome]
  split_ifs with hinb
  · refine ⟨?_, ?_⟩
    · rw [applySoftCap_length]
      exact (mutateAux_length _ _ _ _ 0 _).trans
        ((applyInbreedEffects_length _ _ _ _ _).trans hlk_len)
    · exact applySoftCap_mem (mutateAux_mem _ _ _ _ 0 _
        (Rng.Valid.of_vals_eq (applyInbreedEffects_vals _ _ _ _ _) hv2)
        (applyInbreedEffects_mem hAm hBm hlk_mem hv2))
  · refine ⟨?_, ?_⟩
    · rw [applySoftCap_length]
      exact (mutateAux_length _ _ _ _ 0 _).trans hlk_len
    · exact applySoftCap_mem (mutateAux_mem _ _ _ _ 0 _ hv2 hlk_mem)

/-- Claim C4: every genome produced by crossover, mutate, breed or
createStageGenome has length exactly 10 with every gene in [0, 1], provided
the input and parent genomes are themselves valid 10-gene genomes and each
draw stream is valid (every Math.random() outcome in [0, 1)). -/
theorem genome_invariants (a b g : Genome) (pA pB : Item) (rate gen stage mr : ℝ)
    (locks mlocks : List ℕ) (now : ℕ) (r1 r2 r3 r4 : Rng)
    (ha : ValidGenome a) (hb : ValidGenome b) (hg : ValidGenome g)
    (hA : ValidGenome pA.genome) (hB : ValidGenome pB.genome)
    (h2 : r2.Valid) (h3 : r3.Valid) :
    ValidGenome (crossover a b r1).1 ∧
    ValidGenome (mutate g rate gen mlocks r2).1 ∧
    ValidGenome (breed pA pB mr locks now r3).1.genome ∧
    ValidGenome (createStageGenome stage 10 r4).1 :=
  ⟨crossover_valid r1 ha hb, mutate_valid rate gen mlocks hg h2,
   breed_genome_valid pA pB mr locks now r3 hA hB h3,
   createStageGenome_valid stage r4⟩

/-- The scenario genome is a valid 10-gene genome. -/
theorem scenarioGenome_valid : ValidGenome scenarioGenome := by
  constructor
  · rfl
  · intro x hx
    simp only [scenarioGenome, List.mem_cons, List.not_mem_nil, or_false] at hx
    rcases hx with h | h | h | h | h | h | h | h | h | h <;> subst h <;> norm_num

/-- The constant-1/2 draw stream is valid. -/
theorem halfRng_valid : halfRng.Valid := by
  intro n
  constructor <;> norm_num [halfRng]

/-- The C4 invariants instantiated at the scenario genome, the scenario
parents and the constant-1/2 draw stream. -/
theorem genome_invariants_witness :
    ValidGenome scenarioGenome ∧ ValidGenome (scenarioParent "A").genome ∧ halfRng.Valid ∧
    (ValidGenome (crossover scenarioGenome scenarioGenome halfRng).1 ∧
     ValidGenome (mutate scenarioGenome 0.04 1 [] halfRng).1 ∧
     ValidGenome (breed (scenarioParent "A") (scenarioParent "B") 0.06 [] 0 halfRng).1.genome ∧
     ValidGenome (createStageGenome 1 10 halfRng).1) :=
  ⟨scenarioGenome_valid, scenarioGenome_valid, halfRng_valid,
   genome_invariants scenarioGenome scenarioGenome scenarioGenome
     (scenarioParent "A") (scenarioParent "B") 0.04 1 1 0.06 [] [] 0
     halfRng halfRng halfRng halfRng
     scenarioGenome_valid scenarioGenome_valid scenarioGenome_valid
     scenarioGenome_valid scenarioGenome_valid halfRng_valid halfRng_valid⟩


-- ========================================================================
-- Claim C3: battle termination and end-reason soundness
-- ========================================================================

/-- A phase guarded by stepIfAlive runs exactly when no break has fired. -/
theorem stepIfAlive_none {st : BattleState} (h : st.ended = Option.none)
    (f : BattleState → BattleState) : stepIfAlive f st = f st := by
  simp [stepIfAlive, h]

/-- A phase guarded by stepIfAlive is skipped after a break. -/
theorem stepIfAlive_some {st : BattleState} {r : EndReason} (h : st.ended = some r)
    (f : BattleState → BattleState) : stepIfAlive f st = st := by
  simp [stepIfAlive, h]

/-- Without an HP-decay trait the decay phase is the identity. -/
theorem decayPhase_zero {e : TraitEffects} (he : ¬ e.hpDecayPerSec > 0) (st : BattleState) :
    decayPhase e st = st := by
  simp only [decayPhase, if_neg he]

/-- Without a berserk trait the berserk phase is the identity. -/
theorem berserkPhase_zero {e : TraitEffects} (he : ¬ e.berserkThreshold > 0)
    (st : BattleState) : berserkPhase e st = st := by
  simp only [berserkPhase]
  rw [if_neg]
  intro h
  exact he h.1

/-- The mid-loop weapon check is the identity while the weapon lives. -/
theorem midCheck_pos {st : BattleState} (h : 0 < st.weapon.currentHp) : midCheck st = st := by
  simp only [midCheck]
  rw [if_neg (not_le.mpr h)]

/-- executeAction never changes either combatant's stats: only currentHp
(and the actor's cooldown, elsewhere) move. -/
theorem executeAction_stats (a t : Combatant) (act : ActionType) (g : Genome) (c : ℝ)
    (r : Rng) :
    (executeAction a t act g c r).actor.stats = a.stats ∧
    (executeAction a t act g c r).target.stats = t.stats := by
  cases act with
  | attack => exact ⟨rfl, rfl⟩
  | skill =>
    simp only [executeAction]
    split_ifs <;> exact ⟨rfl, rfl⟩
  | defend => exact ⟨rfl, rfl⟩

/-- executeAction never lowers its actor's HP: an attack or skill leaves the
actor untouched, and a defend heals (clamped at max HP, which is positive).
So a living actor is still alive after its own action. -/
theorem executeAction_actor_hp (a t : Combatant) (act : ActionType) (g : Genome) (c : ℝ)
    (r : Rng) (hmax : 0 < a.stats.maxHp) (hhp : 0 < a.currentHp) :
    0 < (executeAction a t act g c r).actor.currentHp := by
  cases act with
  | attack => exact hhp
  | skill =>
    simp only [executeAction]
    split_ifs <;> exact hhp
  | defend =>
    simp only [executeAction]
    have h10 : (0:ℝ) ≤ jsRound (a.stats.maxHp * 0.05 * 10) / 10 := by
      apply div_nonneg _ (by norm_num)
      exact jsRound_nonneg (by nlinarith)
    exact lt_min hmax (by linarith)

/-- The weapon strike resolution with the lifesteal and DoT hooks off:
either no break fires, or the enemy-death break fires with the enemy HP at
0; the weapon — the actor, whose HP its own action never lowers — stays
alive, and its stats are the acting weapon's stats. -/
theorem weaponStrikeResolve_spec (e : TraitEffects) (h3 : ¬ e.lifesteal > 0)
    (h4 : ¬ e.dotOnHit > 0) (ea : ExecResult) (st : BattleState)
    (hhp : 0 < ea.actor.currentHp) :
    ((weaponStrikeResolve e ea st).ended = st.ended ∨
      ((weaponStrikeResolve e ea st).ended = some EndReason.enemyKilled ∧
        (weaponStrikeResolve e ea st).enemy.currentHp ≤ 0)) ∧
    0 < (weaponStrikeResolve e ea st).weapon.currentHp ∧
    (weaponStrikeResolve e ea st).weapon.stats = ea.actor.stats := by
  have hy3 : (e.lifesteal > 0) = False := eq_false h3
  have hy4 : (e.dotOnHit > 0) = False := eq_false h4
  simp only [weaponStrikeResolve, hy3, hy4, if_false]
  rcases hd : ea.damage with _ | d
  · dsimp only
    split_ifs with hen
    · exact ⟨Or.inr ⟨rfl, hen⟩, lt_max_of_lt_right hhp, rfl⟩
    · exact ⟨Or.inl rfl, lt_max_of_lt_right hhp, rfl⟩
  · rcases eq_or_ne d 0 with hd0 | hd0
    · have hcond : (d ≠ 0) = False := by simp [hd0]
      simp only [hcond, if_false]
      split_ifs with hen
      · exact ⟨Or.inr ⟨rfl, hen⟩, lt_max_of_lt_right hhp, rfl⟩
      · exact ⟨Or.inl rfl, lt_max_of_lt_right hhp, rfl⟩
    · have hcond : (d ≠ 0) = True := by simp [hd0]
      simp only [hcond, if_true]
      split_ifs with hen
      · exact ⟨Or.inr ⟨rfl, hen⟩, lt_max_of_lt_right hhp, rfl⟩
      · exact ⟨Or.inl rfl, lt_max_of_lt_right hhp, rfl⟩

/-- The enemy strike resolution with the self-destruct and thorn hooks off:
no break, or the weapon-death break with the weapon HP at 0, or the
enemy-death break with the enemy HP at 0 and the weapon alive; the weapon
(the target) keeps its stats. -/
theorem enemyStrikeResolve_spec (e : TraitEffects) (h5 : ¬ e.selfDestructChance > 0)
    (h6 : ¬ e.thornDmg > 0) (ea : ExecResult) (st : BattleState)
    (htar : ea.target.stats = st.weapon.stats) :
    ((enemyStrikeResolve e ea st).ended = st.ended ∨
      ((enemyStrikeResolve e ea st).ended = some EndReason.weaponDestroyed ∧
        (enemyStrikeResolve e ea st).weapon.currentHp ≤ 0) ∨
      ((enemyStrikeResolve e ea st).ended = some EndReason.enemyKilled ∧
        (enemyStrikeResolve e ea st).enemy.currentHp ≤ 0 ∧
        0 < (enemyStrikeResolve e ea st).weapon.currentHp)) ∧
    (enemyStrikeResolve e ea st).weapon.stats = st.weapon.stats := by
  have hy5 : (e.selfDestructChance > 0) = False := eq_false h5
  have hy6 : (e.thornDmg > 0) = False := eq_false h6
  simp only [enemyStrikeResolve, hy5, hy6, if_false]
  rcases hd : ea.damage with _ | d
  · dsimp only
    split_ifs with hw he
    · exact ⟨Or.inr (Or.inl ⟨rfl, hw⟩), htar⟩
    · exact ⟨Or.inr (Or.inr ⟨rfl, he, not_le.mp hw⟩), htar⟩
    · exact ⟨Or.inl rfl, htar⟩
  · rcases eq_or_ne d 0 with hd0 | hd0
    · have hcond : (d ≠ 0) = False := by simp [hd0]
      simp only [hcond, if_false]
      split_ifs with hw he
      · exact ⟨Or.inr (Or.inl ⟨rfl, hw⟩), htar⟩
      · exact ⟨Or.inr (Or.inr ⟨rfl, he, not_le.mp hw⟩), htar⟩
      · exact ⟨Or.inl rfl, htar⟩
    · have hcond : (d ≠ 0) = True := by simp [hd0]
      simp only [hcond, if_true]
      split_ifs with hw he
      · exact ⟨Or.inr (Or.inl ⟨rfl, hw⟩), htar⟩
      · exact ⟨Or.inr (Or.inr ⟨rfl, he, not_le.mp hw⟩), htar⟩
      · exact ⟨Or.inl rfl, htar⟩

/-- The weapon phase under the C3 default (no traits): no break, or the
enemy-death break with the enemy dead; the living weapon stays alive with
its stats unchanged. -/
theorem weaponPhase_spec (wg : Genome) (e : TraitEffects) (h3 : ¬ e.lifesteal > 0)
    (h4 : ¬ e.dotOnHit > 0) (c : ℝ) (st : BattleState)
    (hmax : 0 < st.weapon.stats.maxHp) (hw : 0 < st.weapon.currentHp) :
    ((weaponPhase wg e c st).ended = st.ended ∨
      ((weaponPhase wg e c st).ended = some EndReason.enemyKilled ∧
        (weaponPhase wg e c st).enemy.currentHp ≤ 0)) ∧
    0 < (weaponPhase wg e c st).weapon.currentHp ∧
    (weaponPhase wg e c st).weapon.stats = st.weapon.stats := by
  simp only [weaponPhase]
  split_ifs with hcd
  · have h := weaponStrikeResolve_spec e h3 h4
      (executeAction { st.weapon with cooldown := st.weapon.cooldown - 0.1 } st.enemy
        (selectAction { st.weapon with cooldown := st.weapon.cooldown - 0.1 } wg st.rng).1 wg c
        (selectAction { st.weapon with cooldown := st.weapon.cooldown - 0.1 } wg st.rng).2) st
      (executeAction_actor_hp { st.weapon with cooldown := st.weapon.cooldown - 0.1 } st.enemy
        _ wg c _ hmax hw)
    exact ⟨h.1, h.2.1, h.2.2.trans
      (executeAction_stats { st.weapon with cooldown := st.weapon.cooldown - 0.1 } st.enemy
        _ wg c _).1⟩
  · exact ⟨Or.inl rfl, hw, rfl⟩

/-- The enemy phase under the C3 default (no traits): no break, or the
weapon-death break with the weapon dead, or the enemy-death break with the
enemy dead and the weapon alive; the weapon keeps its stats. -/
theorem enemyPhase_spec (eg : Genome) (e : TraitEffects) (h5 : ¬ e.selfDestructChance > 0)
    (h6 : ¬ e.thornDmg > 0) (st : BattleState) :
    ((enemyPhase eg e st).ended = st.ended ∨
      ((enemyPhase eg e st).ended = some EndReason.weaponDestroyed ∧
        (enemyPhase eg e st).weapon.currentHp ≤ 0) ∨
      ((enemyPhase eg e st).ended = some EndReason.enemyKilled ∧
        (enemyPhase eg e st).enemy.currentHp ≤ 0 ∧
        0 < (enemyPhase eg e st).weapon.currentHp)) ∧
    (enemyPhase eg e st).weapon.stats = st.weapon.stats := by
  simp only [enemyPhase]
  split_ifs with hcd
  · exact enemyStrikeResolve_spec e h5 h6
      (executeAction { st.enemy with cooldown := st.enemy.cooldown - 0.1 } st.weapon
        (selectAction { st.enemy with cooldown := st.enemy.cooldown - 0.1 } eg st.rng).1 eg 0
        (selectAction { st.enemy with cooldown := st.enemy.cooldown - 0.1 } eg st.rng).2) st
      (executeAction_stats { st.enemy with cooldown := st.enemy.cooldown - 0.1 } st.weapon
        _ eg 0 _).2
  · exact ⟨Or.inl rfl, rfl⟩

/-- The decay phase never touches the clock or the tick counter. -/
theorem decayPhase_frame (e : TraitEffects) :
    ∀ st : BattleState,
      (decayPhase e st).ticksUsed = st.ticksUsed ∧ (decayPhase e st).time = st.time := by
  intro st
  simp only [decayPhase]
  split_ifs <;> exact ⟨rfl, rfl⟩

/-- The berserk phase never touches the clock or the tick counter. -/
theorem berserkPhase_frame (e : TraitEffects) :
    ∀ st : BattleState,
      (berserkPhase e st).ticksUsed = st.ticksUsed ∧ (berserkPhase e st).time = st.time := by
  intro st
  simp only [berserkPhase]
  split_ifs <;> exact ⟨rfl, rfl⟩

/-- The mid-loop weapon check never touches the clock or the tick counter. -/
theorem midCheck_frame :
    ∀ st : BattleState,
      (midCheck st).ticksUsed = st.ticksUsed ∧ (midCheck st).time = st.time := by
  intro st
  simp only [midCheck]
  split_ifs <;> exact ⟨rfl, rfl⟩

/-- The weapon strike resolution never touches the clock or the tick
counter (for any trait hooks). -/
theorem weaponStrikeResolve_frame (e : TraitEffects) (ea : ExecResult) (st : BattleState) :
    (weaponStrikeResolve e ea st).ticksUsed = st.ticksUsed ∧
    (weaponStrikeResolve e ea st).time = st.time := by
  simp only [weaponStrikeResolve]
  split_ifs <;> exact ⟨rfl, rfl⟩

/-- The enemy strike resolution never touches the clock or the tick
counter (for any trait hooks). -/
theorem enemyStrikeResolve_frame (e : TraitEffects) (ea : ExecResult) (st : BattleState) :
    (enemyStrikeResolve e ea st).ticksUsed = st.ticksUsed ∧
    (enemyStrikeResolve e ea st).time = st.time := by
  simp only [enemyStrikeResolve]
  split_ifs <;> exact ⟨rfl, rfl⟩

/-- The weapon phase never touches the clock or the tick counter. -/
theorem weaponPhase_frame (wg : Genome) (e : TraitEffects) (c : ℝ) :
    ∀ st : BattleState,
      (weaponPhase wg e c st).ticksUsed = st.ticksUsed ∧
      (weaponPhase wg e c st).time = st.time := by
  intro st
  simp only [weaponPhase]
  split_ifs
  · exact weaponStrikeResolve_frame e _ st
  · exact ⟨rfl, rfl⟩

/-- The enemy phase never touches the clock or the tick counter. -/
theorem enemyPhase_frame (eg : Genome) (e : TraitEffects) :
    ∀ st : BattleState,
      (enemyPhase eg e st).ticksUsed = st.ticksUsed ∧
      (enemyPhase eg e st).time = st.time := by
  intro st
  simp only [enemyPhase]
  split_ifs
  · exact enemyStrikeResolve_frame e _ st
  · exact ⟨rfl, rfl⟩

/-- stepIfAlive preserves whatever frame its phase preserves. -/
theorem stepIfAlive_frame {f : BattleState → BattleState}
    (hf : ∀ s, (f s).ticksUsed = s.ticksUsed ∧ (f s).time = s.time) (st : BattleState) :
    (stepIfAlive f st).ticksUsed = st.ticksUsed ∧ (stepIfAlive f st).time = st.time := by
  rcases h : st.ended with _ | r
  · rw [stepIfAlive_none h]
    exact hf st
  · rw [stepIfAlive_some h]
    exact ⟨rfl, rfl⟩

/-- One battle tick increments the tick counter by exactly one and advances
the (two-decimal rounded) clock by exactly one step, for every genome pair,
every trait loadout and every draw stream. -/
theorem battleTick_frame (wg eg : Genome) (e : TraitEffects) (c : ℝ) (st : BattleState) :
    (battleTick wg eg e c st).ticksUsed = st.ticksUsed + 1 ∧
    (battleTick wg eg e c st).time = jsRound ((st.time + 0.1) * 100) / 100 := by
  have hadapt : ∀ s : BattleState,
      ((fun s : BattleState =>
          { s with totalAttempedDamage := s.totalAttempedDamage + s.totalDamageDealt })
          s).ticksUsed = s.ticksUsed ∧
      ((fun s : BattleState =>
          { s with totalAttempedDamage := s.totalAttempedDamage + s.totalDamageDealt })
          s).time = s.time :=
    fun s => ⟨rfl, rfl⟩
  simp only [battleTick]
  constructor
  · rw [(stepIfAlive_frame hadapt _).1, (stepIfAlive_frame (enemyPhase_frame eg e) _).1,
      (stepIfAlive_frame midCheck_frame _).1, (stepIfAlive_frame (weaponPhase_frame wg e c) _).1,
      (stepIfAlive_frame (berserkPhase_frame e) _).1, (decayPhase_frame e _).1]
  · rw [(stepIfAlive_frame hadapt _).2, (stepIfAlive_frame (enemyPhase_frame eg e) _).2,
      (stepIfAlive_frame midCheck_frame _).2, (stepIfAlive_frame (weaponPhase_frame wg e c) _).2,
      (stepIfAlive_frame (berserkPhase_frame e) _).2, (decayPhase_frame e _).2]

/-- One battle tick with no trait hooks, from a live, unended state:
whichever break fires is sound — the enemy-kill break leaves the enemy dead
and the weapon alive, the weapon-destruction break leaves the weapon dead,
and neither the self-destruct break (its trait is off) nor a timeout marker
can fire — and the weapon's stats survive the tick. -/
theorem battleTick_spec (wg eg : Genome) (e : TraitEffects) (c : ℝ)
    (h1 : ¬ e.hpDecayPerSec > 0) (h2 : ¬ e.berserkThreshold > 0)
    (h3 : ¬ e.lifesteal > 0) (h4 : ¬ e.dotOnHit > 0)
    (h5 : ¬ e.selfDestructChance > 0) (h6 : ¬ e.thornDmg > 0)
    (st : BattleState) (hend : st.ended = Option.none)
    (hmax : 0 < st.weapon.stats.maxHp) (hw : 0 < st.weapon.currentHp) :
    ((battleTick wg eg e c st).ended = some EndReason.enemyKilled →
      (battleTick wg eg e c st).enemy.currentHp ≤ 0 ∧
      0 < (battleTick wg eg e c st).weapon.currentHp) ∧
    ((battleTick wg eg e c st).ended = some EndReason.weaponDestroyed →
      (battleTick wg eg e c st).weapon.currentHp ≤ 0) ∧
    ((battleTick wg eg e c st).ended = some EndReason.weaponSelfDestructed → False) ∧
    ((battleTick wg eg e c st).ended = some EndReason.timeout → False) ∧
    (battleTick wg eg e c st).weapon.stats = st.weapon.stats := by
  simp only [battleTick]
  set st1 : BattleState :=
    { st with time := jsRound ((st.time + 0.1) * 100) / 100, ticksUsed := st.ticksUsed + 1 }
    with hst1
  have hend1 : st1.ended = Option.none := hend
  have hmax1 : 0 < st1.weapon.stats.maxHp := hmax
  have hw1 : 0 < st1.weapon.currentHp := hw
  rw [decayPhase_zero h1, stepIfAlive_none hend1, berserkPhase_zero h2,
    stepIfAlive_none hend1]
  obtain ⟨hWend, hWhp, hWstats⟩ := weaponPhase_spec wg e h3 h4 c st1 hmax1 hw1
  rcases hWend with hW | ⟨hWek, hWen⟩
  · have hWnone : (weaponPhase wg e c st1).ended = Option.none := hW.trans hend1
    rw [stepIfAlive_none hWnone, midCheck_pos hWhp, stepIfAlive_none hWnone]
    obtain ⟨hEend, hEstats⟩ := enemyPhase_spec eg e h5 h6 (weaponPhase wg e c st1)
    rcases hEend with hE | ⟨hEwd, hEwle⟩ | ⟨hEek, hEen, hEwp⟩
    · have hEnone : (enemyPhase eg e (weaponPhase wg e c st1)).ended = Option.none :=
        hE.trans hWnone
      rw [stepIfAlive_none hEnone]
      refine ⟨?_, ?_, ?_, ?_, hEstats.trans hWstats⟩ <;> intro hc <;>
        exact absurd (hEnone.symm.trans hc) (by simp)
    · rw [stepIfAlive_some hEwd]
      refine ⟨?_, fun _ => hEwle, ?_, ?_, hEstats.trans hWstats⟩ <;> intro hc <;>
        (rw [hEwd] at hc; exact absurd hc (by simp))
    · rw [stepIfAlive_some hEek]
      refine ⟨fun _ => ⟨hEen, hEwp⟩, ?_, ?_, ?_, hEstats.trans hWstats⟩ <;> intro hc <;>
        (rw [hEek] at hc; exact absurd hc (by simp))
  · rw [stepIfAlive_some hWek, stepIfAlive_some hWek, stepIfAlive_some hWek]
    refine ⟨fun _ => ⟨hWen, hWhp⟩, ?_, ?_, ?_, hWstats⟩ <;> intro hc <;>
      (rw [hWek] at hc; exact absurd hc (by simp))

/-- The battle loop with no trait hooks, run from a live, unended state:
the loop executes at most `fuel` ticks, and whatever break it stops on is
sound (enemy kill ⇒ enemy dead and weapon alive; weapon destruction ⇒
weapon dead; no self-destruct, no timeout marker). -/
theorem battleLoop_spec (wg eg : Genome) (e : TraitEffects) (c maxTime : ℝ)
    (h1 : ¬ e.hpDecayPerSec > 0) (h2 : ¬ e.berserkThreshold > 0)
    (h3 : ¬ e.lifesteal > 0) (h4 : ¬ e.dotOnHit > 0)
    (h5 : ¬ e.selfDestructChance > 0) (h6 : ¬ e.thornDmg > 0) :
    ∀ (fuel : ℕ) (st : BattleState), st.ended = Option.none →
      0 < st.weapon.stats.maxHp →
      ((battleLoop wg eg e c maxTime fuel st).ended = some EndReason.enemyKilled →
        (battleLoop wg eg e c maxTime fuel st).enemy.currentHp ≤ 0 ∧
        0 < (battleLoop wg eg e c maxTime fuel st).weapon.currentHp) ∧
      ((battleLoop wg eg e c maxTime fuel st).ended = some EndReason.weaponDestroyed →
        (battleLoop wg eg e c maxTime fuel st).weapon.currentHp ≤ 0) ∧
      ((battleLoop wg eg e c maxTime fuel st).ended = some EndReason.weaponSelfDestructed →
        False) ∧
      ((battleLoop wg eg e c maxTime fuel st).ended = some EndReason.timeout → False) ∧
      (battleLoop wg eg e c maxTime fuel st).ticksUsed ≤ st.ticksUsed + fuel := by
  intro fuel
  induction fuel with
  | zero =>
    intro st hend hmax
    simp only [battleLoop]
    refine ⟨?_, ?_, ?_, ?_, le_refl _⟩ <;> intro hc <;>
      exact absurd (hend.symm.trans hc) (by simp)
  | succ fuel ih =>
    intro st hend hmax
    simp only [battleLoop]
    split_ifs with hcond
    · obtain ⟨tk1, tk2, tk3, tk4, tk5⟩ :=
        battleTick_spec wg eg e c h1 h2 h3 h4 h5 h6 st hend hmax hcond.2.1
      rcases hended : (battleTick wg eg e c st).ended with _ | r
      · simp only [hended]
        obtain ⟨l1, l2, l3, l4, l5⟩ := ih (battleTick wg eg e c st) hended
          (by rw [tk5]; exact hmax)
        refine ⟨l1, l2, l3, l4, ?_⟩
        have hfr := (battleTick_frame wg eg e c st).1
        omega
      · simp only [hended]
        rw [hended] at tk1 tk2 tk3 tk4
        refine ⟨tk1, tk2, tk3, tk4, ?_⟩
        have hfr := (battleTick_frame wg eg e c st).1
        omega
    · refine ⟨?_, ?_, ?_, ?_, Nat.le_add_right _ _⟩ <;> intro hc <;>
        exact absurd (hend.symm.trans hc) (by simp)

/-- With no traits there are no extra combat effects. -/
theorem getTraitCombatEffects_nil : getTraitCombatEffects [] = {} := rfl

/-- applyTraits with no traits only applies the final stat floors; the
resulting max HP is at least the floor 10. -/
theorem applyTraits_nil_maxHp (s : CombatStats) (b : Bool) :
    (applyTraits s [] b).stats.maxHp = max 10 s.maxHp := by
  simp [applyTraits, evictLoop, SYNERGY_PAIRS]

/-- The weapon that enters the battle loop always has positive max HP. -/
theorem applyTraits_nil_maxHp_pos (s : CombatStats) (b : Bool) :
    0 < (applyTraits s [] b).stats.maxHp := by
  rw [applyTraits_nil_maxHp]
  exact lt_of_lt_of_le (by norm_num) (le_max_left _ _)

/-- The post-loop classification, given the loop-exit soundness facts:
the end reason is one of the four values, the win flag agrees with the
enemy-kill reason, and the tick count is passed through. -/
theorem classifyBattle_spec (f : BattleState)
    (hek : f.ended = some EndReason.enemyKilled →
      f.enemy.currentHp ≤ 0 ∧ 0 < f.weapon.currentHp)
    (hwd : f.ended = some EndReason.weaponDestroyed → f.weapon.currentHp ≤ 0)
    (hsd : f.ended = some EndReason.weaponSelfDestructed → False)
    (htm : f.ended = some EndReason.timeout → False) :
    ((classifyBattle f).1.endReason = EndReason.enemyKilled ∨
     (classifyBattle f).1.endReason = EndReason.weaponDestroyed ∨
     (classifyBattle f).1.endReason = EndReason.weaponSelfDestructed ∨
     (classifyBattle f).1.endReason = EndReason.timeout) ∧
    ((classifyBattle f).1.won = true ↔
      (classifyBattle f).1.endReason = EndReason.enemyKilled) ∧
    (classifyBattle f).1.ticksUsed = f.ticksUsed := by
  simp only [classifyBattle]
  rcases hf : f.ended with _ | r
  · by_cases hwon : f.enemy.currentHp ≤ 0 ∧ f.weapon.currentHp > 0
    · simp [hwon]
    · by_cases hw2 : f.weapon.currentHp ≤ 0 <;> simp [hwon, hw2]
  · cases r with
    | enemyKilled =>
      obtain ⟨he, hwp⟩ := hek hf
      simp [he, hwp]
    | weaponDestroyed =>
      have hwle := hwd hf
      have hnw : ¬ f.weapon.currentHp > 0 := not_lt.mpr hwle
      simp [hnw]
    | weaponSelfDestructed => exact absurd hf hsd
    | timeout => exact absurd hf htm

/-- The loop-plus-classification core of runBattle, from any live initial
state with no tick yet counted and no trait hooks. -/
theorem runBattleCore_spec (wg eg : Genome) (e : TraitEffects) (c maxTime : ℝ)
    (h1 : ¬ e.hpDecayPerSec > 0) (h2 : ¬ e.berserkThreshold > 0)
    (h3 : ¬ e.lifesteal > 0) (h4 : ¬ e.dotOnHit > 0)
    (h5 : ¬ e.selfDestructChance > 0) (h6 : ¬ e.thornDmg > 0)
    (N : ℕ) (st : BattleState) (hend : st.ended = Option.none)
    (hmax : 0 < st.weapon.stats.maxHp) (ht0 : st.ticksUsed = 0) :
    (classifyBattle (battleLoop wg eg e c maxTime N st)).1.ticksUsed ≤ N ∧
    ((classifyBattle (battleLoop wg eg e c maxTime N st)).1.endReason =
        EndReason.enemyKilled ∨
      (classifyBattle (battleLoop wg eg e c maxTime N st)).1.endReason =
        EndReason.weaponDestroyed ∨
      (classifyBattle (battleLoop wg eg e c maxTime N st)).1.endReason =
        EndReason.weaponSelfDestructed ∨
      (classifyBattle (battleLoop wg eg e c maxTime N st)).1.endReason =
        EndReason.timeout) ∧
    ((classifyBattle (battleLoop wg eg e c maxTime N st)).1.won = true ↔
      (classifyBattle (battleLoop wg eg e c maxTime N st)).1.endReason =
        EndReason.enemyKilled) := by
  obtain ⟨l1, l2, l3, l4, l5⟩ :=
    battleLoop_spec wg eg e c maxTime h1 h2 h3 h4 h5 h6 N st hend hmax
  obtain ⟨c1, c2, c3⟩ := classifyBattle_spec (battleLoop wg eg e c maxTime N st) l1 l2 l3 l4
  refine ⟨?_, c1, c2⟩
  rw [c3]
  omega

/-- Claim C3: for every pair of genomes, every stage level, every maxTime
and every draw stream, runBattle at the default loadout (no traits, full
starting HP, zero mastery — the loadout FastSimulator uses) returns after
at most ⌈maxTime×10⌉ = maxTime/tickInterval loop ticks (300 at the default
30 seconds); the returned endReason is one of the four defined values; and
won is true if and only if endReason is the enemy kill. -/
theorem runBattle_bounded (wg eg : Genome) (stage maxTime : ℝ) (rng : Rng) :
    (runBattle wg eg stage maxTime [] Option.none 0 rng).1.ticksUsed ≤
      Int.toNat ⌈maxTime * 10⌉ ∧
    (maxTime = 30 → (runBattle wg eg stage maxTime [] Option.none 0 rng).1.ticksUsed ≤ 300) ∧
    ((runBattle wg eg stage maxTime [] Option.none 0 rng).1.endReason =
        EndReason.enemyKilled ∨
      (runBattle wg eg stage maxTime [] Option.none 0 rng).1.endReason =
        EndReason.weaponDestroyed ∨
      (runBattle wg eg stage maxTime [] Option.none 0 rng).1.endReason =
        EndReason.weaponSelfDestructed ∨
      (runBattle wg eg stage maxTime [] Option.none 0 rng).1.endReason =
        EndReason.timeout) ∧
    ((runBattle wg eg stage maxTime [] Option.none 0 rng).1.won = true ↔
      (runBattle wg eg stage maxTime [] Option.none 0 rng).1.endReason =
        EndReason.enemyKilled) := by
  have key :
      (runBattle wg eg stage maxTime [] Option.none 0 rng).1.ticksUsed ≤
        Int.toNat ⌈maxTime * 10⌉ ∧
      ((runBattle wg eg stage maxTime [] Option.none 0 rng).1.endReason =
          EndReason.enemyKilled ∨
        (runBattle wg eg stage maxTime [] Option.none 0 rng).1.endReason =
          EndReason.weaponDestroyed ∨
        (runBattle wg eg stage maxTime [] Option.none 0 rng).1.endReason =
          EndReason.weaponSelfDestructed ∨
        (runBattle wg eg stage maxTime [] Option.none 0 rng).1.endReason =
          EndReason.timeout) ∧
      ((runBattle wg eg stage maxTime [] Option.none 0 rng).1.won = true ↔
        (runBattle wg eg stage maxTime [] Option.none 0 rng).1.endReason =
          EndReason.enemyKilled) := by
    simp only [runBattle]
    exact runBattleCore_spec wg eg _ _ maxTime
      (by simp [getTraitCombatEffects_nil])
      (by simp [getTraitCombatEffects_nil])
      (by simp [getTraitCombatEffects_nil])
      (by simp [getTraitCombatEffects_nil])
      (by simp [getTraitCombatEffects_nil])
      (by simp [getTraitCombatEffects_nil])
      _ _ rfl (applyTraits_nil_maxHp_pos _ _) rfl
  refine ⟨key.1, ?_, key.2.1, key.2.2⟩
  intro h30
  subst h30
  have h300 : Int.toNat ⌈(30:ℝ) * 10⌉ = 300 := by
    rw [show ((30:ℝ) * 10) = ((300:ℤ):ℝ) by norm_num, Int.ceil_intCast]
    rfl
  exact h300 ▸ key.1

/-- jsRound is the identity on natural numbers. -/
theorem jsRound_natCast (n : ℕ) : jsRound (n : ℝ) = (n : ℝ) := by
  simp [jsRound]

/-- The clock law of one tick: from an exact tenth, the two-decimal rounded
clock advances by exactly 0.1 (so the clock is always ticksUsed/10). -/
theorem tick_clock (k : ℕ) :
    jsRound (((k : ℝ) / 10 + 0.1) * 100) / 100 = ((k + 1 : ℕ) : ℝ) / 10 := by
  have harg : ((k : ℝ) / 10 + 0.1) * 100 = ((10 * k + 10 : ℕ) : ℝ) := by
    push_cast
    ring
  rw [harg, jsRound_natCast]
  push_cast
  ring

/-- The fuel runBattle passes covers the whole clock: ⌈maxTime×10⌉ tenths
reach maxTime. -/
theorem runBattle_fuel_sufficient (maxTime : ℝ) :
    maxTime ≤ ((Int.toNat ⌈maxTime * 10⌉ : ℕ) : ℝ) / 10 := by
  rcases le_or_lt maxTime 0 with h | h
  · exact h.trans (by positivity)
  · have h0 : (0:ℤ) ≤ ⌈maxTime * 10⌉ := Int.ceil_nonneg (by positivity)
    have hto : ((Int.toNat ⌈maxTime * 10⌉ : ℕ) : ℝ) = ((⌈maxTime * 10⌉ : ℤ) : ℝ) := by
      rw [← Int.cast_natCast, Int.toNat_of_nonneg h0]
    rw [hto]
    have hc := Int.le_ceil (maxTime * 10)
    linarith

/-- The fuel never truncates the battle loop: if the recursion returns with
no break recorded, the source's while condition is genuinely false at the
returned state — the embedding's fueled loop and the source's unbounded
while loop exit at the same state (clock law: time = ticksUsed/10, and
runBattle's fuel covers maxTime by runBattle_fuel_sufficient). -/
theorem battleLoop_stable (wg eg : Genome) (e : TraitEffects) (c maxTime : ℝ) :
    ∀ (fuel : ℕ) (st : BattleState), st.time = (st.ticksUsed : ℝ) / 10 →
      maxTime ≤ ((fuel + st.ticksUsed : ℕ) : ℝ) / 10 →
      (battleLoop wg eg e c maxTime fuel st).ended = Option.none →
      ¬ ((battleLoop wg eg e c maxTime fuel st).time < maxTime ∧
         0 < (battleLoop wg eg e c maxTime fuel st).weapon.currentHp ∧
         0 < (battleLoop wg eg e c maxTime fuel st).enemy.currentHp) := by
  intro fuel
  induction fuel with
  | zero =>
    intro st htime hbound _
    simp only [battleLoop]
    intro hcond
    rw [htime] at hcond
    simp only [Nat.zero_add] at hbound
    have := hcond.1
    linarith
  | succ fuel ih =>
    intro st htime hbound hnone
    simp only [battleLoop] at hnone ⊢
    split_ifs at hnone ⊢ with hcond
    · rcases hended : (battleTick wg eg e c st).ended with _ | r
      · simp only [hended] at hnone ⊢
        apply ih (battleTick wg eg e c st)
        · have hfr := battleTick_frame wg eg e c st
          rw [hfr.2, hfr.1, htime]
          exact tick_clock st.ticksUsed
        · have hfr := (battleTick_frame wg eg e c st).1
          rw [hfr]
          have heq : fuel + (st.ticksUsed + 1) = fuel + 1 + st.ticksUsed := by omega
          rw [heq]
          exact hbound
        · exact hnone
      · simp only [hended] at hnone
        exact absurd hnone (by simp)
    · intro hc
      exact hcond hc

end
